import Mathlib

/-!
# A shallow embedding of the 6502 emulator core (`CPU.cpp`)

`Byte` (`uint8_t`) and `Word` (`uint16_t`) members are natural numbers; every
assignment to a `Byte` / `Word` variable reduces modulo `256` / `65536`.
The memory array is indexed by the 65,536 addresses and holds bytes.
The `int` members (`cyclesRemaining`, `currentCycle`, `loops`) are integers.
The repeat counter `loops` can be driven to any value by a long run, so its
increment wraps from INT_MAX to INT_MIN as the compiled code does (`intIncr`);
the two cycle counters stay within a few units of their value at the fetch, so
they are not wrapped.  A bitwise test on an `int` argument goes through its 32-bit
two's-complement bit pattern (`intBits`).  Printing is not part of the state;
the colour of the line printed by a fetch is given by `CPU.tickDiagnostic`.
-/

namespace Emu6502

/-! ## Data model -/

/-- Flat memory `Byte Data[MAX_MEMORY]`: one byte for each of the 65,536 addresses. -/
structure MEM where
  Data : Fin 65536 → Fin 256

/-- Size of the address space, `MEM::MAX_MEMORY`. -/
abbrev MEM.MAX_MEMORY : Nat := 0x10000

/-- Constructor `MEM()`: every byte is zero. -/
def MEM.init : MEM := ⟨fun _ => 0⟩

/-- Address of the low byte of the reset vector. -/
abbrev RESET_VECTOR : Nat := 0xFFFC

/-- First address of the stack page. -/
abbrev STACK_BASE : Nat := 0x0100

/-- Engine state, `enum State {FETCH, EXECUTE}`. -/
inductive State where
  | FETCH
  | EXECUTE
  deriving DecidableEq

/-- Status bit-field of the CPU: eight one-bit members. -/
structure Status where
  C : Nat
  Z : Nat
  I : Nat
  D : Nat
  B : Nat
  U : Nat
  V : Nat
  N : Nat
  deriving DecidableEq

/-- All data members of `struct CPU`; `mem` stands for the pointed-to memory. -/
structure CPU where
  mem : MEM
  A : Nat
  X : Nat
  Y : Nat
  Pc : Nat
  Sp : Nat
  halted : Bool
  cyclesRemaining : Int
  currentCycle : Int
  opCode : Nat
  prevOpCode : Nat
  loops : Int
  operand : Nat
  lowByte : Nat
  HighByte : Nat
  effectiveAdress : Nat
  offset : Nat
  oldPc : Nat
  state : State
  status : Status

/-- Bit pattern of a 32-bit two's-complement `int`. -/
def intBits (r : Int) : Nat := (r % 4294967296).toNat

/-! ## Opcode constants -/

abbrev CPU.INS_ADC_IMMEDIATE : Nat := 0x69
abbrev CPU.INS_AND_IMMEDIATE : Nat := 0x29
abbrev CPU.INS_BNE_RELATIVE : Nat := 0xD0
abbrev CPU.INS_BRK_IMPLIED : Nat := 0x00
abbrev CPU.INS_CLD_IMPLIED : Nat := 0xD8
abbrev CPU.INS_CPY_ABSOLUTE : Nat := 0xCC
abbrev CPU.INS_DEX_IMPLIED : Nat := 0xCA
abbrev CPU.INS_DEY_IMPLIED : Nat := 0x88
abbrev CPU.INS_JMP_ABSOLUTE : Nat := 0x4C
abbrev CPU.INS_LDA_IMMEDIATE : Nat := 0xA9
abbrev CPU.INS_LDX_IMMEDIATE : Nat := 0xA2
abbrev CPU.INS_LDY_IMMEDIATE : Nat := 0xA0
abbrev CPU.INS_NOP_IMPLIED : Nat := 0xEA
abbrev CPU.INS_STA_ABSOLUTE : Nat := 0x8D
abbrev CPU.INS_TXS_IMPLIED : Nat := 0x9A

/-! ## Memory access, reset, stack -/

/-- Array read `Data[adr]` with `adr` converted to a `Word`. -/
def MEM.read (m : MEM) (adr : Nat) : Nat :=
  (m.Data ⟨adr % 65536, Nat.mod_lt adr (by decide)⟩).val

/-- Array assignment `Data[adr] = value` with `adr` converted to a `Word` and
`value` to a `Byte`. -/
def MEM.write (m : MEM) (adr value : Nat) : MEM :=
  ⟨fun a => if a.val = adr % 65536 then ⟨value % 256, Nat.mod_lt value (by decide)⟩ else m.Data a⟩

/-- Memory read `MR(Word adr)`. -/
def CPU.MR (s : CPU) (adr : Nat) : Nat :=
  s.mem.read adr

/-- Memory write `MW(Word adr, Byte value)`. -/
def CPU.MW (s : CPU) (adr value : Nat) : CPU :=
  { s with mem := s.mem.write adr value }

/-- Reset sequence `reset()`. -/
def CPU.reset (s : CPU) : CPU :=
  let lowByte := s.MR RESET_VECTOR
  let highByte := s.MR (RESET_VECTOR + 1)
  let s := { s with Pc := ((highByte <<< 8) ||| lowByte) % 65536 }
  { s with Sp := 0xFD }

/-- Power-on initialisation `start_up(MEM* memory)`. -/
def CPU.start_up (s : CPU) (memory : MEM) : CPU :=
  let s := { s with mem := memory }
  let s := { s with Sp := 0xFF }
  let s := { s with A := 0 }
  let s := { s with X := 0 }
  let s := { s with Y := 0 }
  let s := s.MW RESET_VECTOR 0x00
  s.MW (RESET_VECTOR + 1) 0x06

/-- Stack push `push(Byte value)`. -/
def CPU.push (s : CPU) (value : Nat) : CPU :=
  let s := s.MW (0x0100 + s.Sp) value
  let s := { s with Sp := (s.Sp + 255) % 256 }
  { s with Sp := s.Sp &&& 0xFF }

/-- Stack pull `pull()`: the byte returned and the state afterwards. -/
def CPU.pull (s : CPU) : Nat × CPU :=
  let s := { s with Sp := (s.Sp + 1) % 256 }
  let s := { s with Sp := s.Sp &&& 0xFF }
  (s.MR (0x0100 + s.Sp), s)

/-- Accessor `isHalted()`. -/
def CPU.isHalted (s : CPU) : Bool := s.halted

/-! ## Flag helpers -/

/-- Flag helper `setCarry(int result)`. -/
def CPU.setCarry (s : CPU) (result : Int) : CPU :=
  if 0b10000000 &&& intBits result ≠ 0 then
    { s with status := { s.status with C := 1 } }
  else
    { s with status := { s.status with C := 0 } }

/-- Flag helper `setZero(int result)`. -/
def CPU.setZero (s : CPU) (result : Int) : CPU :=
  { s with status := { s.status with Z := if result = 0 then 1 else 0 } }

/-- Address helper `calcEffectiveAdress()`. -/
def CPU.calcEffectiveAdress (s : CPU) : CPU :=
  let s := { s with effectiveAdress := s.lowByte }
  { s with effectiveAdress := (s.effectiveAdress ||| (s.HighByte <<< 8)) % 65536 }

/-- Flag helper `setOverflow(int result)`; `&` binds tighter than `^`. -/
def CPU.setOverflow (s : CPU) (result : Int) : CPU :=
  if (0b10000000 &&& intBits result) ^^^ (0b01000000 &&& intBits result) ≠ 0 then
    { s with status := { s.status with V := 1 } }
  else
    { s with status := { s.status with V := 0 } }

/-- Flag helper `setNegative(int result)`. -/
def CPU.setNegative (s : CPU) (result : Int) : CPU :=
  { s with status := { s.status with N := if intBits result &&& 0x80 ≠ 0 then 1 else 0 } }

/-! ## Cycle table -/

/-- Cycle table `getInstructionCycles(Byte opcode)`. -/
def CPU.getInstructionCycles (opcode : Nat) : Int :=
  if opcode = CPU.INS_ADC_IMMEDIATE then 2
  else if opcode = CPU.INS_AND_IMMEDIATE then 2
  else if opcode = CPU.INS_BNE_RELATIVE then 2
  else if opcode = CPU.INS_BRK_IMPLIED then 7
  else if opcode = CPU.INS_CLD_IMPLIED then 2
  else if opcode = CPU.INS_CPY_ABSOLUTE then 4
  else if opcode = CPU.INS_DEX_IMPLIED then 2
  else if opcode = CPU.INS_DEY_IMPLIED then 2
  else if opcode = CPU.INS_JMP_ABSOLUTE then 3
  else if opcode = CPU.INS_LDA_IMMEDIATE then 2
  else if opcode = CPU.INS_LDX_IMMEDIATE then 2
  else if opcode = CPU.INS_LDY_IMMEDIATE then 2
  else if opcode = CPU.INS_NOP_IMPLIED then 2
  else if opcode = CPU.INS_STA_ABSOLUTE then 4
  else if opcode = CPU.INS_TXS_IMPLIED then 2
  else 0

/-! ## Micro-operations: one definition per `case` of the opcode switch -/

/-- Read the byte at `Pc` into `operand` and advance `Pc` (cycle 1 of the immediate opcodes). -/
def CPU.readOperand (s : CPU) : CPU :=
  let s := { s with operand := s.MR s.Pc }
  { s with Pc := (s.Pc + 1) % 65536 }

/-- Read the byte at `Pc` into `lowByte` and advance `Pc` (cycle 1 of the absolute opcodes). -/
def CPU.readLowByte (s : CPU) : CPU :=
  let s := { s with lowByte := s.MR s.Pc }
  { s with Pc := (s.Pc + 1) % 65536 }

/-- Read the byte at `Pc` into `HighByte` and advance `Pc` (cycle 2 of the absolute opcodes). -/
def CPU.readHighByte (s : CPU) : CPU :=
  let s := { s with HighByte := s.MR s.Pc }
  { s with Pc := (s.Pc + 1) % 65536 }

/-- Switch body of `case INS_ADC_IMMEDIATE`. -/
def CPU.execADC (s : CPU) : CPU :=
  if s.currentCycle = 1 then s.readOperand
  else if s.currentCycle = 2 then
    let s := { s with A := (s.A + s.operand) % 256 }
    let s := s.setCarry s.A
    let s := s.setZero s.A
    s.setNegative s.A
  else s

/-- Switch body of `case INS_AND_IMMEDIATE`. -/
def CPU.execAND (s : CPU) : CPU :=
  if s.currentCycle = 1 then s.readOperand
  else if s.currentCycle = 2 then
    let s := { s with A := s.A &&& s.operand }
    let s := s.setZero s.A
    s.setNegative s.A
  else s

/-- Switch body of `case INS_BNE_RELATIVE`; `oldPc` is a `Byte`, `offset` an unsigned `Byte`. -/
def CPU.execBNE (s : CPU) : CPU :=
  if s.currentCycle = 1 then
    let s := { s with offset := s.MR s.Pc }
    { s with Pc := (s.Pc + 1) % 65536 }
  else if s.currentCycle = 2 then
    if s.status.Z = 0 then
      let s := { s with oldPc := s.Pc % 256 }
      let s := { s with Pc := (s.Pc + s.offset) % 65536 }
      { s with cyclesRemaining := s.cyclesRemaining + 1 }
    else s
  else if s.currentCycle = 3 then
    if (s.oldPc &&& 0xFF00) ≠ (s.Pc &&& 0xFF00) then
      { s with cyclesRemaining := s.cyclesRemaining + 1 }
    else s
  else s

/-- Switch body of `case INS_BRK_IMPLIED`. -/
def CPU.execBRK (s : CPU) : CPU :=
  if s.currentCycle = 1 then { s with Pc := (s.Pc + 1) % 65536 }
  else if s.currentCycle = 2 then s.push ((s.Pc >>> 8) &&& 0xFF)
  else if s.currentCycle = 3 then s.push (s.Pc &&& 0xFF)
  else if s.currentCycle = 4 then s.push s.status.B
  else if s.currentCycle = 5 then { s with status := { s.status with B := 1 } }
  else if s.currentCycle = 6 then { s with Pc := s.MR 0xFFFE }
  else if s.currentCycle = 7 then { s with Pc := (s.Pc ||| (s.MR 0xFFFF <<< 8)) % 65536 }
  else s

/-- Switch body of `case INS_CLD_IMPLIED`. -/
def CPU.execCLD (s : CPU) : CPU :=
  if s.currentCycle = 1 then s
  else if s.currentCycle = 2 then { s with status := { s.status with D := 0 } }
  else s

/-- Switch body of `case INS_CPY_ABSOLUTE`; `Y - operand` is an `int`. -/
def CPU.execCPY (s : CPU) : CPU :=
  if s.currentCycle = 1 then s.readLowByte
  else if s.currentCycle = 2 then s.readHighByte
  else if s.currentCycle = 3 then
    let s := { s with effectiveAdress := s.lowByte }
    { s with effectiveAdress := (s.effectiveAdress ||| (s.HighByte <<< 8)) % 65536 }
  else if s.currentCycle = 4 then
    let s := { s with operand := s.MR s.effectiveAdress }
    let s := { s with status := { s.status with C := if s.Y ≥ s.operand then 1 else 0 } }
    let s := s.setZero ((s.Y : Int) - (s.operand : Int))
    s.setNegative ((s.Y : Int) - (s.operand : Int))
  else s

/-- Switch body of `case INS_DEX_IMPLIED`. -/
def CPU.execDEX (s : CPU) : CPU :=
  if s.currentCycle = 1 then s
  else if s.currentCycle = 2 then
    let s := { s with X := (s.X + 255) % 256 }
    let s := s.setZero s.X
    s.setNegative s.X
  else s

/-- Switch body of `case INS_DEY_IMPLIED`. -/
def CPU.execDEY (s : CPU) : CPU :=
  if s.currentCycle = 1 then s
  else if s.currentCycle = 2 then
    let s := { s with Y := (s.Y + 255) % 256 }
    let s := s.setZero s.Y
    s.setNegative s.Y
  else s

/-- Switch body of `case INS_JMP_ABSOLUTE`. -/
def CPU.execJMP (s : CPU) : CPU :=
  if s.currentCycle = 1 then s.readLowByte
  else if s.currentCycle = 2 then s.readHighByte
  else if s.currentCycle = 3 then
    let s := s.calcEffectiveAdress
    { s with Pc := s.effectiveAdress }
  else s

/-- Switch body of `case INS_LDA_IMMEDIATE`; the flags are taken from `X`. -/
def CPU.execLDA (s : CPU) : CPU :=
  if s.currentCycle = 1 then s.readOperand
  else if s.currentCycle = 2 then
    let s := { s with A := s.operand }
    let s := s.setZero s.X
    s.setNegative s.X
  else s

/-- Switch body of `case INS_LDX_IMMEDIATE`. -/
def CPU.execLDX (s : CPU) : CPU :=
  if s.currentCycle = 1 then s.readOperand
  else if s.currentCycle = 2 then
    let s := { s with X := s.operand }
    let s := s.setZero s.X
    s.setNegative s.X
  else s

/-- Switch body of `case INS_LDY_IMMEDIATE`. -/
def CPU.execLDY (s : CPU) : CPU :=
  if s.currentCycle = 1 then s.readOperand
  else if s.currentCycle = 2 then
    let s := { s with Y := s.operand }
    let s := s.setZero s.Y
    s.setNegative s.Y
  else s

/-- Switch body of `case INS_NOP_IMPLIED`. -/
def CPU.execNOP (s : CPU) : CPU :=
  if s.currentCycle = 1 then s
  else if s.currentCycle = 2 then s
  else s

/-- Switch body of `case INS_STA_ABSOLUTE`. -/
def CPU.execSTA (s : CPU) : CPU :=
  if s.currentCycle = 1 then s.readLowByte
  else if s.currentCycle = 2 then s.readHighByte
  else if s.currentCycle = 3 then s.calcEffectiveAdress
  else if s.currentCycle = 4 then s.MW s.effectiveAdress s.A
  else s

/-- Switch body of `case INS_TXS_IMPLIED`. -/
def CPU.execTXS (s : CPU) : CPU :=
  if s.currentCycle = 1 then s
  else if s.currentCycle = 2 then { s with Sp := s.X }
  else s

/-- The opcode switch of `executeInstructionCycle()`, before `currentCycle++`. -/
def CPU.dispatch (s : CPU) : CPU :=
  if s.opCode = CPU.INS_ADC_IMMEDIATE then s.execADC
  else if s.opCode = CPU.INS_AND_IMMEDIATE then s.execAND
  else if s.opCode = CPU.INS_BNE_RELATIVE then s.execBNE
  else if s.opCode = CPU.INS_BRK_IMPLIED then s.execBRK
  else if s.opCode = CPU.INS_CLD_IMPLIED then s.execCLD
  else if s.opCode = CPU.INS_CPY_ABSOLUTE then s.execCPY
  else if s.opCode = CPU.INS_DEX_IMPLIED then s.execDEX
  else if s.opCode = CPU.INS_DEY_IMPLIED then s.execDEY
  else if s.opCode = CPU.INS_JMP_ABSOLUTE then s.execJMP
  else if s.opCode = CPU.INS_LDA_IMMEDIATE then s.execLDA
  else if s.opCode = CPU.INS_LDX_IMMEDIATE then s.execLDX
  else if s.opCode = CPU.INS_LDY_IMMEDIATE then s.execLDY
  else if s.opCode = CPU.INS_NOP_IMPLIED then s.execNOP
  else if s.opCode = CPU.INS_STA_ABSOLUTE then s.execSTA
  else if s.opCode = CPU.INS_TXS_IMPLIED then s.execTXS
  else s

/-- One micro-operation, `executeInstructionCycle()`. -/
def CPU.executeInstructionCycle (s : CPU) : CPU :=
  let s := s.dispatch
  { s with currentCycle := s.currentCycle + 1 }

/-! ## The engine -/

/-- Increment `x++` of a 32-bit `int`: INT_MAX wraps to INT_MIN (two's complement). -/
def intIncr (x : Int) : Int :=
  if x = 2147483647 then -2147483648 else x + 1

/-- One hardware cycle, `tick()`. -/
def CPU.tick (s : CPU) : CPU :=
  match s.state with
  | State.FETCH =>
    let s := { s with opCode := s.MR s.Pc }
    let s := if s.prevOpCode = s.opCode then { s with loops := intIncr s.loops } else s
    let s := { s with prevOpCode := s.opCode }
    let s := if s.loops > (200 : Int) then { s with opCode := 0x00 } else s
    let s := { s with cyclesRemaining := CPU.getInstructionCycles s.opCode }
    let s := { s with currentCycle := 1 }
    let s := { s with Pc := (s.Pc + 1) % 65536 }
    { s with state := State.EXECUTE }
  | State.EXECUTE =>
    let s := s.executeInstructionCycle
    let s := { s with cyclesRemaining := s.cyclesRemaining - 1 }
    if s.cyclesRemaining ≤ 0 then { s with state := State.FETCH } else s

/-- The line a `tick()` prints: `some true` for "IMPLEMENTED", `some false` for
"NOT IMPLEMENTED", `none` when the tick prints nothing (an EXECUTE tick). -/
def CPU.tickDiagnostic (s : CPU) : Option Bool :=
  match s.state with
  | State.FETCH => some (decide ((s.tick).cyclesRemaining ≠ 0))
  | State.EXECUTE => none

/-- The state after `n` calls of `tick()`. -/
def CPU.tickN : Nat → CPU → CPU
  | 0, s => s
  | n + 1, s => CPU.tickN n s.tick

/-- The run loop of `main`: tick, stop as soon as the Break flag reads 1.
The fuel bounds the number of ticks; `none` means the fuel ran out. -/
def runLoop : Nat → CPU → Option CPU
  | 0, _ => none
  | fuel + 1, cpu =>
    let cpu := cpu.tick
    if cpu.status.B = 1 then some cpu else runLoop fuel cpu

/-- Copy of a program into memory, `mem.Data[loadAddress + i] = program[i]`. -/
def loadProgram (m : MEM) (loadAddress : Nat) : List Nat → MEM
  | [] => m
  | b :: bs =>
    loadProgram
      ⟨fun a => if a.val = loadAddress then ⟨b % 256, Nat.mod_lt b (by decide)⟩ else m.Data a⟩
      (loadAddress + 1) bs

/-- The example program of `main`. -/
def program : List Nat :=
  [0xA2, 0x04, 0xA9, 0x06, 0xA0, 0x05, 0x69, 0x14, 0xCA, 0x88, 0x00]

/-- The object `CPU cpu;` over a given memory: the default member initialisers of
the struct, and zero for the members the struct leaves uninitialised
(`cyclesRemaining`, `currentCycle`, `opCode`, `prevOpCode`, `status`). -/
def CPU.fresh (m : MEM) : CPU :=
  { mem := m, A := 0x0, X := 0x0, Y := 0x0, Pc := 0x0, Sp := 0x0, halted := false,
    cyclesRemaining := 0, currentCycle := 0, opCode := 0, prevOpCode := 0, loops := 0,
    operand := 0, lowByte := 0, HighByte := 0, effectiveAdress := 0, offset := 0x0,
    oldPc := 0x0, state := State.FETCH, status := ⟨0, 0, 0, 0, 0, 0, 0, 0⟩ }

/-- Memory of the end-to-end scenario: zeroed, the example program copied to
address 0x0000, then the reset vector written by `start_up`. -/
def scenarioMemory : MEM :=
  ((CPU.fresh MEM.init).start_up (loadProgram MEM.init 0x0000 program)).mem

/-- A machine about to fetch the byte string `bytes` placed at address `pc`
in otherwise zero memory. -/
def CPU.loadedAt (pc : Nat) (bytes : List Nat) : CPU :=
  { CPU.fresh (loadProgram MEM.init pc bytes) with Pc := pc % 65536 }

/-- Follows the spec's words, not the source: the hardware status byte with
C, Z, I, D, B, U, V, N in bits 0 through 7. -/
def Status.specByte (p : Status) : Nat :=
  p.C + 2 * p.Z + 4 * p.I + 8 * p.D + 16 * p.B + 32 * p.U + 64 * p.V + 128 * p.N

/-- The bytes read from memory by the FETCH ticks among the next `n` ticks, in order. -/
def fetchedOpcodes : Nat → CPU → List Nat
  | 0, _ => []
  | n + 1, s =>
    match s.state with
    | State.FETCH => s.MR s.Pc :: fetchedOpcodes n s.tick
    | State.EXECUTE => fetchedOpcodes n s.tick

/-- The number of FETCH ticks among the next `n` ticks at which the byte read
equals the member `prevOpCode` (the byte read by the fetch before; at the first
fetch of a run, the value the member holds then). -/
def repeatFetches : Nat → CPU → Nat
  | 0, _ => 0
  | n + 1, s =>
    match s.state with
    | State.FETCH => (if s.prevOpCode = s.MR s.Pc then 1 else 0) + repeatFetches n s.tick
    | State.EXECUTE => repeatFetches n s.tick

/-- A three-instruction loop: `NOP; NOP; JMP 0x0000`. -/
def guardProgram : List Nat := [0xEA, 0xEA, 0x4C, 0x00, 0x00]

/-! ## Basic lemmas -/

/-- The two branches of `setCarry` written as one assignment. -/
theorem setCarry_eq (s : CPU) (r : Int) :
    s.setCarry r =
      { s with status := { s.status with C := if 0b10000000 &&& intBits r ≠ 0 then 1 else 0 } } := by
  unfold CPU.setCarry
  split <;> rfl

/-- A fetch tick on which the loop guard does not trip. -/
theorem tick_fetch (s : CPU) (hstate : s.state = State.FETCH)
    (hguard : (if s.prevOpCode = s.MR s.Pc then s.loops + 1 else s.loops) ≤ 200) :
    s.tick = { s with
      opCode := s.MR s.Pc
      loops := if s.prevOpCode = s.MR s.Pc then s.loops + 1 else s.loops
      prevOpCode := s.MR s.Pc
      cyclesRemaining := CPU.getInstructionCycles (s.MR s.Pc)
      currentCycle := 1
      Pc := (s.Pc + 1) % 65536
      state := State.EXECUTE } := by
  unfold CPU.tick
  rw [hstate]
  by_cases h : s.prevOpCode = s.MR s.Pc
  · have hg : ¬ (s.loops + 1 > 200) := by simpa [h] using hguard
    have hne : ¬ (s.loops = 2147483647) := by omega
    simp [h, hg, intIncr, hne]
  · have hg : ¬ (s.loops > 200) := by simpa [h] using hguard
    simp [h, hg]

/-- An execute tick: the micro-operation, then the two counters, then the state. -/
theorem tick_execute (s : CPU) (hstate : s.state = State.EXECUTE) :
    s.tick =
      { s.dispatch with
          currentCycle := (s.dispatch).currentCycle + 1
          cyclesRemaining := (s.dispatch).cyclesRemaining - 1
          state := if (s.dispatch).cyclesRemaining - 1 ≤ 0 then State.FETCH
                   else (s.dispatch).state } := by
  unfold CPU.tick
  rw [hstate]
  simp only [CPU.executeInstructionCycle]
  split <;> rfl

/-- Ticking `n + 1` times is ticking `n` times and once more. -/
theorem tickN_succ (n : Nat) (s : CPU) : CPU.tickN (n + 1) s = (CPU.tickN n s).tick := by
  induction n generalizing s with
  | zero => rfl
  | succ n ih =>
    show CPU.tickN (n + 1) s.tick = _
    rw [ih]
    rfl

/-- The run loop returns the state after the first tick that leaves the Break flag set. -/
theorem runLoop_of_first_break (n : Nat) (s : CPU)
    (hfirst : ∀ k, k < n → (CPU.tickN (k + 1) s).status.B ≠ 1)
    (hbreak : (CPU.tickN (n + 1) s).status.B = 1) :
    ∀ fuel, n + 1 ≤ fuel → runLoop fuel s = some (CPU.tickN (n + 1) s) := by
  induction n generalizing s with
  | zero =>
    intro fuel hf
    obtain ⟨f, rfl⟩ : ∃ f, fuel = f + 1 := ⟨fuel - 1, by omega⟩
    have hb : s.tick.status.B = 1 := hbreak
    simp [runLoop, hb, CPU.tickN]
  | succ n ih =>
    intro fuel hf
    obtain ⟨f, rfl⟩ : ∃ f, fuel = f + 1 := ⟨fuel - 1, by omega⟩
    have h0 : s.tick.status.B ≠ 1 := hfirst 0 (by omega)
    have := ih s.tick (fun k hk => hfirst (k + 1) (by omega)) hbreak f (by omega)
    simp only [runLoop, h0, if_false]
    exact this

/-- A longer fuel does not change the result of a run that has stopped. -/
theorem runLoop_mono (fuel : Nat) (s t : CPU) (h : runLoop fuel s = some t) :
    ∀ more, fuel ≤ more → runLoop more s = some t := by
  induction fuel generalizing s with
  | zero => simp [runLoop] at h
  | succ f ih =>
    intro more hm
    obtain ⟨m, rfl⟩ : ∃ m, more = m + 1 := ⟨more - 1, by omega⟩
    simp only [runLoop] at h ⊢
    split at h
    · next hb => simpa [hb] using h
    · next hb =>
      simp only [hb, if_false]
      exact ih _ h m (by omega)

/-- Reading after one write. -/
theorem MEM.read_write (m : MEM) (a b v : Nat) :
    (m.write a v).read b = if b % 65536 = a % 65536 then v % 256 else m.read b := by
  unfold MEM.read MEM.write
  by_cases h : b % 65536 = a % 65536 <;> simp [h]

/-- Reads convert the address to a `Word`. -/
theorem MEM.read_mod (m : MEM) (a : Nat) : m.read (a % 65536) = m.read a := by
  unfold MEM.read
  simp

/-- Every memory read yields a byte. -/
theorem MR_lt (s : CPU) (adr : Nat) : s.MR adr < 256 := by
  unfold CPU.MR MEM.read
  exact Fin.is_lt _

/-- Two bytes combined little-endian fit in a `Word`. -/
theorem byte_pair_lt (hi lo : Nat) (hhi : hi < 256) (hlo : lo < 256) :
    (hi <<< 8) ||| lo < 65536 := by
  have h1 : hi <<< 8 < 2 ^ 16 := by
    rw [Nat.shiftLeft_eq]
    omega
  have h2 : lo < 2 ^ 16 := by omega
  exact Nat.or_lt_two_pow h1 h2

/-- The program bytes as read from the scenario memory. -/
theorem scenarioMemory_read :
    scenarioMemory.read 0 = 0xA2 ∧ scenarioMemory.read 1 = 0x04 ∧ scenarioMemory.read 2 = 0xA9 ∧
    scenarioMemory.read 3 = 0x06 ∧ scenarioMemory.read 4 = 0xA0 ∧ scenarioMemory.read 5 = 0x05 ∧
    scenarioMemory.read 6 = 0x69 ∧ scenarioMemory.read 7 = 0x14 ∧ scenarioMemory.read 8 = 0xCA ∧
    scenarioMemory.read 9 = 0x88 ∧ scenarioMemory.read 10 = 0x00 := by
  decide

/-! ## Cycle counts -/

/-- C1: for each supported opcode with its documented cycle count `n` (a BNE only
when Z = 1, so that the branch is not taken), fetched from a FETCH state on which
the loop guard does not trip, the engine is in EXECUTE right after the fetch tick
and after each of the first `n - 1` execute ticks, and is back in FETCH after the
`n`-th execute tick. -/
theorem cycle_count_documented (s : CPU) (op n : Nat)
    (hop : (op, n) ∈ [(0x69, 2), (0x29, 2), (0xD8, 2), (0xCA, 2), (0x88, 2), (0xA9, 2),
      (0xA2, 2), (0xA0, 2), (0xEA, 2), (0x9A, 2), (0x4C, 3), (0xCC, 4), (0x8D, 4), (0x00, 7),
      (0xD0, 2)])
    (hstate : s.state = State.FETCH)
    (hmem : s.MR s.Pc = op)
    (hguard : (if s.prevOpCode = op then s.loops + 1 else s.loops) ≤ 200)
    (hbne : op = 0xD0 → s.status.Z = 1) :
    (∀ k, k < n → (CPU.tickN k s.tick).state = State.EXECUTE) ∧
    (CPU.tickN n s.tick).state = State.FETCH := by
  subst hmem
  rw [tick_fetch s hstate hguard]
  simp only [List.mem_cons, Prod.mk.injEq, List.mem_singleton, List.not_mem_nil, or_false] at hop
  rcases hop with h | h | h | h | h | h | h | h | h | h | h | h | h | h | h <;>
    obtain ⟨h1, h2⟩ := h <;> subst h2 <;> simp only [h1] at hbne ⊢ <;> constructor
  all_goals first
    | (intro k hk
       interval_cases k <;>
       simp [CPU.tickN, tick_execute, hbne, CPU.dispatch, CPU.execADC, CPU.execAND, CPU.execBNE,
         CPU.execBRK, CPU.execCLD, CPU.execCPY, CPU.execDEX, CPU.execDEY, CPU.execJMP, CPU.execLDA,
         CPU.execLDX, CPU.execLDY, CPU.execNOP, CPU.execSTA, CPU.execTXS,
         CPU.getInstructionCycles, CPU.readOperand, CPU.readLowByte, CPU.readHighByte,
         setCarry_eq, CPU.setZero, CPU.setNegative, CPU.calcEffectiveAdress, CPU.push, CPU.MW])
    | simp [CPU.tickN, tick_execute, hbne, CPU.dispatch, CPU.execADC, CPU.execAND, CPU.execBNE,
         CPU.execBRK, CPU.execCLD, CPU.execCPY, CPU.execDEX, CPU.execDEY, CPU.execJMP, CPU.execLDA,
         CPU.execLDX, CPU.execLDY, CPU.execNOP, CPU.execSTA, CPU.execTXS,
         CPU.getInstructionCycles, CPU.readOperand, CPU.readLowByte, CPU.readHighByte,
         setCarry_eq, CPU.setZero, CPU.setNegative, CPU.calcEffectiveAdress, CPU.push, CPU.MW]

/-- C1 witness: a BRK (documented count 7) fetched at address 0x0000. -/
theorem cycle_count_documented_witness :
    (CPU.loadedAt 0x0000 [0x00]).state = State.FETCH ∧
    (CPU.loadedAt 0x0000 [0x00]).MR (CPU.loadedAt 0x0000 [0x00]).Pc = 0x00 ∧
    ((∀ k, k < 7 → (CPU.tickN k (CPU.loadedAt 0x0000 [0x00]).tick).state = State.EXECUTE) ∧
     (CPU.tickN 7 (CPU.loadedAt 0x0000 [0x00]).tick).state = State.FETCH) :=
  ⟨rfl, rfl,
   cycle_count_documented (CPU.loadedAt 0x0000 [0x00]) 0x00 7 (by decide) rfl rfl (by decide)
     (by decide)⟩

/-! ## End-to-end scenario -/

/-- C2: from any machine whose memory is the scenario memory (zero but for the
program at 0x0000..0x000A and the reset vector), with PC = 0x0000, state FETCH,
loops = 0 and the Break flag clear, the run loop of `main` stops (24 ticks of
fuel are enough, and more fuel gives the same result), and at that point
A = 0x1A, X = 0x03, Y = 0x04 and B = 1. -/
theorem end_to_end_scenario (s : CPU) (hmem : s.mem = scenarioMemory) (hpc : s.Pc = 0x0000)
    (hstate : s.state = State.FETCH) (hloops : s.loops = 0) (hB : s.status.B = 0) :
    ∃ t : CPU, (∀ fuel, 24 ≤ fuel → runLoop fuel s = some t) ∧
      t.A = 0x1A ∧ t.X = 0x03 ∧ t.Y = 0x04 ∧ t.status.B = 1 := by
  obtain ⟨m0, m1, m2, m3, m4, m5, m6, m7, m8, m9, m10⟩ := scenarioMemory_read
  obtain ⟨mem, A, X, Y, Pc, Sp, halted, cyc, cur, op, prev, loops, operand, lo, hi, ea,
    off, oldPc, st, status⟩ := s
  obtain ⟨C, Z, I, D, B, U, V, N⟩ := status
  simp only at hmem hpc hstate hloops hB
  subst hmem hpc hstate hloops hB
  have key : ∃ t : CPU, runLoop 24 ⟨scenarioMemory, A, X, Y, 0, Sp, halted, cyc, cur, op, prev, 0,
      operand, lo, hi, ea, off, oldPc, State.FETCH, ⟨C, Z, I, D, 0, U, V, N⟩⟩ = some t ∧
      t.A = 0x1A ∧ t.X = 0x03 ∧ t.Y = 0x04 ∧ t.status.B = 1 := by
    by_cases h : prev = 0xA2
    · simp [runLoop, CPU.tick, CPU.executeInstructionCycle, h, CPU.dispatch, CPU.execADC,
         CPU.execBRK, CPU.execDEX, CPU.execDEY, CPU.execLDA, CPU.execLDX, CPU.execLDY,
         CPU.getInstructionCycles, CPU.readOperand,
         setCarry_eq, CPU.setZero, CPU.setNegative, CPU.push, CPU.MW, CPU.MR, intIncr,
         m0, m1, m2, m3, m4, m5, m6, m7, m8, m9, m10]
    · simp [runLoop, CPU.tick, CPU.executeInstructionCycle, h, CPU.dispatch, CPU.execADC,
         CPU.execBRK, CPU.execDEX, CPU.execDEY, CPU.execLDA, CPU.execLDX, CPU.execLDY,
         CPU.getInstructionCycles, CPU.readOperand,
         setCarry_eq, CPU.setZero, CPU.setNegative, CPU.push, CPU.MW, CPU.MR, intIncr,
         m0, m1, m2, m3, m4, m5, m6, m7, m8, m9, m10]
  obtain ⟨t, ht, hres⟩ := key
  exact ⟨t, runLoop_mono 24 _ t ht, hres⟩

/-- C2 witness: the freshly constructed machine over the scenario memory. -/
theorem end_to_end_scenario_witness :
    (CPU.fresh scenarioMemory).mem = scenarioMemory ∧ (CPU.fresh scenarioMemory).Pc = 0x0000 ∧
    (CPU.fresh scenarioMemory).state = State.FETCH ∧ (CPU.fresh scenarioMemory).loops = 0 ∧
    (CPU.fresh scenarioMemory).status.B = 0 ∧
    ∃ t : CPU, (∀ fuel, 24 ≤ fuel → runLoop fuel (CPU.fresh scenarioMemory) = some t) ∧
      t.A = 0x1A ∧ t.X = 0x03 ∧ t.Y = 0x04 ∧ t.status.B = 1 :=
  ⟨rfl, rfl, rfl, rfl, rfl, end_to_end_scenario (CPU.fresh scenarioMemory) rfl rfl rfl rfl rfl⟩

/-! ## Unsupported opcodes -/

/-- C3, counterexample to the claim as stated: the byte 0xFF is in no case of the
cycle table; the tick that fetches it at PC = 0x0000 leaves `isHalted()` false,
enters EXECUTE and moves PC to 0x0001, so no halt state is entered and PC is
mutated. -/
theorem unsupported_opcode_not_halting :
    (CPU.loadedAt 0x0000 [0xFF]).state = State.FETCH ∧
    (CPU.loadedAt 0x0000 [0xFF]).MR (CPU.loadedAt 0x0000 [0xFF]).Pc = 0xFF ∧
    CPU.getInstructionCycles 0xFF = 0 ∧
    (CPU.loadedAt 0x0000 [0xFF]).Pc = 0x0000 ∧
    (CPU.loadedAt 0x0000 [0xFF]).tick.isHalted = false ∧
    (CPU.loadedAt 0x0000 [0xFF]).tick.state = State.EXECUTE ∧
    (CPU.loadedAt 0x0000 [0xFF]).tick.Pc = 0x0001 := by
  decide

/-- C3, amended: when the byte at PC is none of the 15 table opcodes and the loop
guard does not trip, the fetch tick prints the "NOT IMPLEMENTED" line, leaves
`isHalted()` as it was, enters EXECUTE with a cycle count of 0 and advances PC by
one (mod 65536); A, X, Y, SP, the status flags and memory are unchanged. -/
theorem unsupported_opcode_fetch (s : CPU) (op : Nat)
    (hop : op ∉ [0x69, 0x29, 0xD0, 0x00, 0xD8, 0xCC, 0xCA, 0x88, 0x4C, 0xA9, 0xA2, 0xA0, 0xEA,
      0x8D, 0x9A])
    (hstate : s.state = State.FETCH)
    (hmem : s.MR s.Pc = op)
    (hguard : (if s.prevOpCode = op then s.loops + 1 else s.loops) ≤ 200) :
    s.tickDiagnostic = some false ∧
    s.tick.isHalted = s.isHalted ∧ s.tick.state = State.EXECUTE ∧
    s.tick.cyclesRemaining = 0 ∧ s.tick.Pc = (s.Pc + 1) % 65536 ∧
    s.tick.A = s.A ∧ s.tick.X = s.X ∧ s.tick.Y = s.Y ∧ s.tick.Sp = s.Sp ∧
    s.tick.status = s.status ∧ s.tick.mem = s.mem := by
  subst hmem
  have hc : CPU.getInstructionCycles (s.MR s.Pc) = 0 := by
    simp only [List.mem_cons, List.mem_singleton, List.not_mem_nil, or_false, not_or] at hop
    simp [CPU.getInstructionCycles, hop]
  unfold CPU.tickDiagnostic
  rw [hstate, tick_fetch s hstate hguard]
  simp [hc, CPU.isHalted]

/-- C3 witness: the byte 0x02 fetched at address 0x0300. -/
theorem unsupported_opcode_fetch_witness :
    (CPU.loadedAt 0x0300 [0x02]).state = State.FETCH ∧
    (CPU.loadedAt 0x0300 [0x02]).MR (CPU.loadedAt 0x0300 [0x02]).Pc = 0x02 ∧
    (CPU.loadedAt 0x0300 [0x02]).tickDiagnostic = some false ∧
    (CPU.loadedAt 0x0300 [0x02]).tick.state = State.EXECUTE ∧
    (CPU.loadedAt 0x0300 [0x02]).tick.Pc = ((CPU.loadedAt 0x0300 [0x02]).Pc + 1) % 65536 :=
  have h := unsupported_opcode_fetch (CPU.loadedAt 0x0300 [0x02]) 0x02 (by decide) rfl rfl
    (by decide)
  ⟨rfl, rfl, h.1, h.2.2.1, h.2.2.2.2.1⟩

/-! ## Reset -/

/-- C4: `reset()` sets PC to `(mem[0xFFFD] << 8) | mem[0xFFFC]` and SP to 0xFD and
leaves A, X, Y, the flags and memory unchanged, for every memory image; after
`start_up` (which stores 0x00 at 0xFFFC and 0x06 at 0xFFFD) a reset gives
PC = 0x0600 and SP = 0xFD. -/
theorem reset_vector (s : CPU) (memory : MEM) :
    s.reset.Pc = (s.MR 0xFFFD <<< 8) ||| s.MR 0xFFFC ∧ s.reset.Sp = 0xFD ∧
    s.reset.A = s.A ∧ s.reset.X = s.X ∧ s.reset.Y = s.Y ∧
    s.reset.status = s.status ∧ s.reset.mem = s.mem ∧
    (s.start_up memory).MR 0xFFFC = 0x00 ∧ (s.start_up memory).MR 0xFFFD = 0x06 ∧
    (s.start_up memory).reset.Pc = 0x0600 ∧ (s.start_up memory).reset.Sp = 0xFD := by
  have hlt := byte_pair_lt (s.MR 0xFFFD) (s.MR 0xFFFC) (MR_lt _ _) (MR_lt _ _)
  refine ⟨?_, rfl, rfl, rfl, rfl, rfl, rfl, ?_, ?_, ?_, rfl⟩
  · simp only [CPU.reset]
    exact Nat.mod_eq_of_lt hlt
  · simp [CPU.start_up, CPU.MW, CPU.MR, MEM.read_write, RESET_VECTOR]
  · simp [CPU.start_up, CPU.MW, CPU.MR, MEM.read_write, RESET_VECTOR]
  · simp [CPU.reset, CPU.start_up, CPU.MW, CPU.MR, MEM.read_write, RESET_VECTOR]

/-! ## Stack -/

/-- C5: for a byte `v` and a stack pointer in 0x00..0xFF, `push(v)` (which moves
SP down by one, wrapping 0x00 to 0xFF) followed by `pull()` returns `v` and
restores SP; every memory byte other than the one at 0x0100 + SP is as before,
and that byte holds `v`. -/
theorem push_pull_round_trip (s : CPU) (v : Nat) (hv : v < 256) (hsp : s.Sp < 256) :
    (s.push v).pull.1 = v ∧ (s.push v).pull.2.Sp = s.Sp ∧
    (s.push v).Sp = (s.Sp + 255) % 256 ∧
    (∀ a : Fin 65536, a.val ≠ 0x0100 + s.Sp →
      (s.push v).pull.2.mem.Data a = s.mem.Data a) ∧
    (s.push v).pull.2.MR (0x0100 + s.Sp) = v := by
  have hand : ∀ x : Nat, x &&& 0xFF = x % 256 := fun x => Nat.and_pow_two_sub_one_eq_mod x 8
  have hsp2 : s.Sp % 256 = s.Sp := Nat.mod_eq_of_lt hsp
  have hsp3 : (s.Sp + 255 + 1) % 256 = s.Sp := by omega
  have hvm : v % 256 = v := Nat.mod_eq_of_lt hv
  refine ⟨?_, ?_, ?_, ?_, ?_⟩
  · simp [CPU.push, CPU.pull, CPU.MW, CPU.MR, MEM.read_write, hand, hsp2, hsp3, hvm]
  · simp [CPU.push, CPU.pull, CPU.MW, hand, hsp2, hsp3]
  · simp [CPU.push, CPU.MW, hand]
  · intro a ha
    have : ¬ (a.val = (0x0100 + s.Sp) % 65536) := by omega
    simp [CPU.push, CPU.pull, CPU.MW, MEM.write, this]
  · simp [CPU.push, CPU.pull, CPU.MW, CPU.MR, MEM.read_write, hvm]

/-- C5 witness: pushing 0x42 with SP = 0x00, the wrapping case. -/
theorem push_pull_round_trip_witness :
    (0x42 < 256 ∧ (CPU.fresh MEM.init).Sp < 256) ∧
    ((CPU.fresh MEM.init).push 0x42).Sp = 0xFF ∧
    ((CPU.fresh MEM.init).push 0x42).pull.1 = 0x42 ∧
    ((CPU.fresh MEM.init).push 0x42).pull.2.Sp = (CPU.fresh MEM.init).Sp :=
  have h := push_pull_round_trip (CPU.fresh MEM.init) 0x42 (by decide) (by decide)
  ⟨⟨by decide, by decide⟩, h.2.2.1, h.1, h.2.1⟩

/-! ## Loads and ADC: flags -/

/-- C6, the code at two failing inputs: LDA #0x00 with X = 0x01 loads A = 0x00 but
leaves Z = 0, and LDA #0x80 with X = 0x00 loads A = 0x80 but gives Z = 1 and
N = 0; the flags of LDA follow X, not the loaded byte. -/
theorem lda_flags_follow_X :
    (CPU.tickN 3 { CPU.loadedAt 0x0000 [0xA9, 0x00] with X := 0x01 }).A = 0x00 ∧
    (CPU.tickN 3 { CPU.loadedAt 0x0000 [0xA9, 0x00] with X := 0x01 }).status.Z = 0 ∧
    (CPU.tickN 3 { CPU.loadedAt 0x0000 [0xA9, 0x00] with X := 0x01 }).state = State.FETCH ∧
    (CPU.tickN 3 (CPU.loadedAt 0x0000 [0xA9, 0x80])).A = 0x80 ∧
    (CPU.tickN 3 (CPU.loadedAt 0x0000 [0xA9, 0x80])).status.Z = 1 ∧
    (CPU.tickN 3 (CPU.loadedAt 0x0000 [0xA9, 0x80])).status.N = 0 := by
  decide

/-- C7, the code at two failing inputs: ADC #0x01 with A = 0xFF and C = 0 gives
A = 0x00 and Z = 1 but Carry = 0, and ADC #0x40 with A = 0x40 gives A = 0x80 and
Carry = 1 although the sum fits a byte; the Carry flag is bit 7 of the result. -/
theorem adc_carry_is_bit7 :
    ({ CPU.loadedAt 0x0000 [0x69, 0x01] with A := 0xFF } : CPU).status.C = 0 ∧
    (CPU.tickN 3 { CPU.loadedAt 0x0000 [0x69, 0x01] with A := 0xFF }).A = 0x00 ∧
    (CPU.tickN 3 { CPU.loadedAt 0x0000 [0x69, 0x01] with A := 0xFF }).status.Z = 1 ∧
    (CPU.tickN 3 { CPU.loadedAt 0x0000 [0x69, 0x01] with A := 0xFF }).status.C = 0 ∧
    (CPU.tickN 3 { CPU.loadedAt 0x0000 [0x69, 0x01] with A := 0xFF }).state = State.FETCH ∧
    (CPU.tickN 3 { CPU.loadedAt 0x0000 [0x69, 0x40] with A := 0x40 }).A = 0x80 ∧
    (CPU.tickN 3 { CPU.loadedAt 0x0000 [0x69, 0x40] with A := 0x40 }).status.C = 1 := by
  decide

/-- C8, the code at the failing input: ADC #0x50 with A = 0x50 and V = 0 gives
A = 0xA0 and leaves V = 0; ADC never writes the Overflow flag. -/
theorem adc_leaves_overflow :
    ({ CPU.loadedAt 0x0000 [0x69, 0x50] with A := 0x50 } : CPU).status.V = 0 ∧
    (CPU.tickN 3 { CPU.loadedAt 0x0000 [0x69, 0x50] with A := 0x50 }).A = 0xA0 ∧
    (CPU.tickN 3 { CPU.loadedAt 0x0000 [0x69, 0x50] with A := 0x50 }).status.V = 0 ∧
    (CPU.tickN 3 { CPU.loadedAt 0x0000 [0x69, 0x50] with A := 0x50 }).state = State.FETCH := by
  decide

/-! ## Branches and jumps -/

/-- C9, the code at the failing input: BNE +1 at 0x0200 with Z = 0 branches from
0x0202 to 0x0203, inside one page, yet the engine is still in EXECUTE after 3
execute ticks and returns to FETCH only after the 4th. -/
theorem bne_same_page_four_ticks :
    (CPU.loadedAt 0x0200 [0xD0, 0x01]).status.Z = 0 ∧
    (CPU.tickN 3 (CPU.loadedAt 0x0200 [0xD0, 0x01])).oldPc = 0x02 ∧
    (CPU.tickN 3 (CPU.loadedAt 0x0200 [0xD0, 0x01])).Pc = 0x0203 ∧
    (CPU.tickN 4 (CPU.loadedAt 0x0200 [0xD0, 0x01])).state = State.EXECUTE ∧
    (CPU.tickN 5 (CPU.loadedAt 0x0200 [0xD0, 0x01])).state = State.FETCH ∧
    (CPU.tickN 5 (CPU.loadedAt 0x0200 [0xD0, 0x01])).Pc = 0x0203 := by
  decide

/-- C10: when memory at PC, PC+1, PC+2 holds 0x4C, lowByte, highByte and the
opcode is fetched without the loop guard tripping, the engine is in EXECUTE after
the fetch tick and the first two execute ticks, and after the third execute tick
it is in FETCH with PC = `(highByte << 8) | lowByte` and A, X, Y, SP, the flags
and memory unchanged. -/
theorem jmp_absolute (s : CPU) (lowByte highByte : Nat)
    (hstate : s.state = State.FETCH)
    (hguard : (if s.prevOpCode = 0x4C then s.loops + 1 else s.loops) ≤ 200)
    (hop : s.MR s.Pc = 0x4C) (hlo : s.MR (s.Pc + 1) = lowByte)
    (hhi : s.MR (s.Pc + 2) = highByte) :
    (∀ k, 1 ≤ k → k ≤ 3 → (CPU.tickN k s).state = State.EXECUTE) ∧
    (CPU.tickN 4 s).state = State.FETCH ∧
    (CPU.tickN 4 s).Pc = (highByte <<< 8) ||| lowByte ∧
    (CPU.tickN 4 s).A = s.A ∧ (CPU.tickN 4 s).X = s.X ∧ (CPU.tickN 4 s).Y = s.Y ∧
    (CPU.tickN 4 s).Sp = s.Sp ∧ (CPU.tickN 4 s).status = s.status ∧
    (CPU.tickN 4 s).mem = s.mem := by
  have hlt : (highByte <<< 8) ||| lowByte < 65536 := by
    subst hlo hhi
    exact byte_pair_lt _ _ (MR_lt _ _) (MR_lt _ _)
  have hg : (if s.prevOpCode = s.MR s.Pc then s.loops + 1 else s.loops) ≤ 200 := by
    rw [hop]
    exact hguard
  have hf := tick_fetch s hstate hg
  rw [hop] at hf
  have hlo2 : s.mem.read (s.Pc + 1) = lowByte := hlo
  have hhi2 : s.mem.read (s.Pc + 1 + 1) = highByte := hhi
  have hpc : (lowByte ||| highByte <<< 8) % 65536 = highByte <<< 8 ||| lowByte := by
    rw [Nat.or_comm]
    exact Nat.mod_eq_of_lt hlt
  refine ⟨?_, ?_, ?_, ?_, ?_, ?_, ?_, ?_, ?_⟩
  · intro k h1 h3
    interval_cases k <;>
    simp [CPU.tickN, hf, tick_execute, CPU.dispatch, CPU.execJMP, CPU.getInstructionCycles,
      CPU.readLowByte, CPU.readHighByte, CPU.calcEffectiveAdress, CPU.MR, MEM.read_mod]
  all_goals
    simp [CPU.tickN, hf, tick_execute, CPU.dispatch, CPU.execJMP, CPU.getInstructionCycles,
      CPU.readLowByte, CPU.readHighByte, CPU.calcEffectiveAdress, CPU.MR, MEM.read_mod,
      hlo2, hhi2, hpc]

/-- C10 witness: `JMP 0x1234` fetched at address 0x0010. -/
theorem jmp_absolute_witness :
    (CPU.loadedAt 0x0010 [0x4C, 0x34, 0x12]).state = State.FETCH ∧
    (CPU.loadedAt 0x0010 [0x4C, 0x34, 0x12]).MR 0x0010 = 0x4C ∧
    (CPU.loadedAt 0x0010 [0x4C, 0x34, 0x12]).MR 0x0011 = 0x34 ∧
    (CPU.loadedAt 0x0010 [0x4C, 0x34, 0x12]).MR 0x0012 = 0x12 ∧
    (CPU.tickN 4 (CPU.loadedAt 0x0010 [0x4C, 0x34, 0x12])).state = State.FETCH ∧
    (CPU.tickN 4 (CPU.loadedAt 0x0010 [0x4C, 0x34, 0x12])).Pc = 0x1234 :=
  have h := jmp_absolute (CPU.loadedAt 0x0010 [0x4C, 0x34, 0x12]) 0x34 0x12 rfl (by decide)
    rfl rfl rfl
  ⟨rfl, rfl, rfl, rfl, h.2.1, h.2.2.1⟩

/-! ## Bit 7 of a difference -/

/-- The bit pattern of a small non-negative `int` is the number itself. -/
theorem intBits_natCast (n : Nat) (h : n < 4294967296) : intBits (n : Int) = n := by
  unfold intBits
  omega

set_option maxRecDepth 100000 in
/-- Bit 7 of a byte is set exactly when the byte is at least 128. -/
theorem and_128_small : ∀ y, y < 256 → (y &&& 0x80 ≠ 0 ↔ 128 ≤ y) := by
  decide

/-- The mask 0x80 tests bit 7, which only depends on the low byte. -/
theorem and_128_ne_zero (x : Nat) : x &&& 0x80 ≠ 0 ↔ 128 ≤ x % 256 := by
  have h1 : x &&& 0x80 = (x % 256) &&& 0x80 := by
    have : x % 256 = x &&& 255 := (Nat.and_pow_two_sub_one_eq_mod x 8).symm
    rw [this, Nat.and_assoc]
    rfl
  rw [h1]
  exact and_128_small _ (Nat.mod_lt _ (by decide))

/-- Low byte of the `int` difference of two bytes. -/
theorem intBits_sub_mod (y m : Nat) (hy : y < 256) (hm : m < 256) :
    intBits ((y : Int) - (m : Int)) % 256 = (y + 256 - m) % 256 := by
  unfold intBits
  omega

/-! ## CPY -/

/-- C11: when memory at PC, PC+1, PC+2 holds 0xCC, lowByte, highByte, the byte at
the effective address `(highByte << 8) | lowByte` is `m`, and Y is a byte, then
after the fetch tick and 4 execute ticks the engine is back in FETCH with
Carry = 1 iff Y >= m, Zero = 1 iff Y = m, Negative = bit 7 of (Y - m) mod 256,
and Y unchanged. -/
theorem cpy_absolute (s : CPU) (lowByte highByte m : Nat)
    (hstate : s.state = State.FETCH)
    (hguard : (if s.prevOpCode = 0xCC then s.loops + 1 else s.loops) ≤ 200)
    (hop : s.MR s.Pc = 0xCC) (hlo : s.MR (s.Pc + 1) = lowByte)
    (hhi : s.MR (s.Pc + 2) = highByte)
    (hm : s.MR ((highByte <<< 8) ||| lowByte) = m) (hY : s.Y < 256) :
    (CPU.tickN 5 s).state = State.FETCH ∧
    (CPU.tickN 5 s).status.C = (if s.Y ≥ m then 1 else 0) ∧
    (CPU.tickN 5 s).status.Z = (if s.Y = m then 1 else 0) ∧
    (CPU.tickN 5 s).status.N = ((s.Y + 256 - m) % 256) / 128 ∧
    (CPU.tickN 5 s).Y = s.Y := by
  have hmlt : m < 256 := by
    rw [← hm]
    exact MR_lt _ _
  have hg : (if s.prevOpCode = s.MR s.Pc then s.loops + 1 else s.loops) ≤ 200 := by
    rw [hop]
    exact hguard
  have hf := tick_fetch s hstate hg
  rw [hop] at hf
  have hlo2 : s.mem.read (s.Pc + 1) = lowByte := hlo
  have hhi2 : s.mem.read (s.Pc + 1 + 1) = highByte := hhi
  have hm2 : s.mem.read (lowByte ||| highByte <<< 8) = m := by
    rw [Nat.or_comm]
    exact hm
  have hN : (if intBits ((s.Y : Int) - (m : Int)) &&& 0x80 = 0 then 0 else 1)
      = ((s.Y + 256 - m) % 256) / 128 := by
    have h1 := and_128_ne_zero (intBits ((s.Y : Int) - (m : Int)))
    rw [intBits_sub_mod s.Y m hY hmlt] at h1
    by_cases h : intBits ((s.Y : Int) - (m : Int)) &&& 0x80 = 0
    · rw [if_pos h]
      have : ¬ 128 ≤ (s.Y + 256 - m) % 256 := fun h2 => (h1.mpr h2) h
      omega
    · rw [if_neg h]
      have := h1.mp h
      omega
  have hZ : ((s.Y : Int) - (m : Int) = 0) ↔ s.Y = m := by omega
  refine ⟨?_, ?_, ?_, ?_, ?_⟩
  · simp [CPU.tickN, hf, tick_execute, CPU.dispatch, CPU.execCPY, CPU.getInstructionCycles,
      CPU.readLowByte, CPU.readHighByte, CPU.setZero, CPU.setNegative, CPU.MR, MEM.read_mod]
  · simp [CPU.tickN, hf, tick_execute, CPU.dispatch, CPU.execCPY, CPU.getInstructionCycles,
      CPU.readLowByte, CPU.readHighByte, CPU.setZero, CPU.setNegative, CPU.MR, MEM.read_mod,
      hlo2, hhi2, hm2]
  · simp [CPU.tickN, hf, tick_execute, CPU.dispatch, CPU.execCPY, CPU.getInstructionCycles,
      CPU.readLowByte, CPU.readHighByte, CPU.setZero, CPU.setNegative, CPU.MR, MEM.read_mod,
      hlo2, hhi2, hm2]
    simp only [hZ]
  · simp [CPU.tickN, hf, tick_execute, CPU.dispatch, CPU.execCPY, CPU.getInstructionCycles,
      CPU.readLowByte, CPU.readHighByte, CPU.setZero, CPU.setNegative, CPU.MR, MEM.read_mod,
      hlo2, hhi2, hm2]
    exact hN
  · simp [CPU.tickN, hf, tick_execute, CPU.dispatch, CPU.execCPY, CPU.getInstructionCycles,
      CPU.readLowByte, CPU.readHighByte, CPU.setZero, CPU.setNegative, CPU.MR, MEM.read_mod]

/-- C11 witness: `CPY 0x0003` with Y = 0x05 and the byte 0x05 at address 0x0003. -/
theorem cpy_absolute_witness :
    ({ CPU.loadedAt 0x0000 [0xCC, 0x03, 0x00, 0x05] with Y := 0x05 } : CPU).MR 0x0003 = 0x05 ∧
    (CPU.tickN 5 { CPU.loadedAt 0x0000 [0xCC, 0x03, 0x00, 0x05] with Y := 0x05 }).status.C = 1 ∧
    (CPU.tickN 5 { CPU.loadedAt 0x0000 [0xCC, 0x03, 0x00, 0x05] with Y := 0x05 }).status.Z = 1 ∧
    (CPU.tickN 5 { CPU.loadedAt 0x0000 [0xCC, 0x03, 0x00, 0x05] with Y := 0x05 }).status.N = 0 :=
  have h := cpy_absolute { CPU.loadedAt 0x0000 [0xCC, 0x03, 0x00, 0x05] with Y := 0x05 }
    0x03 0x00 0x05 rfl (by decide) rfl rfl rfl rfl (by decide)
  ⟨rfl, h.2.1, h.2.2.1, h.2.2.2.1⟩

/-! ## BRK -/

/-- C12: when BRK (0x00) is fetched at address `p` with stack pointer `s` (a
byte) and the loop guard does not trip, the engine is in EXECUTE after the fetch
tick and each of the first 6 execute ticks, and after the 7th execute tick it is
in FETCH with PC = `(mem[0xFFFF] << 8) | mem[0xFFFE]`, Break = 1,
SP = (s - 3) mod 256, the high byte of (p + 2) mod 65536 at 0x0100 + s and its
low byte at 0x0100 + ((s - 1) mod 256). -/
theorem brk_vectoring (s : CPU)
    (hstate : s.state = State.FETCH)
    (hguard : (if s.prevOpCode = 0x00 then s.loops + 1 else s.loops) ≤ 200)
    (hop : s.MR s.Pc = 0x00) (hsp : s.Sp < 256) :
    (∀ k, 1 ≤ k → k ≤ 7 → (CPU.tickN k s).state = State.EXECUTE) ∧
    (CPU.tickN 8 s).state = State.FETCH ∧
    (CPU.tickN 8 s).Pc = (s.MR 0xFFFF <<< 8) ||| s.MR 0xFFFE ∧
    (CPU.tickN 8 s).status.B = 1 ∧
    (CPU.tickN 8 s).Sp = (s.Sp + 253) % 256 ∧
    (CPU.tickN 8 s).MR (0x0100 + s.Sp) = ((s.Pc + 2) % 65536) / 256 ∧
    (CPU.tickN 8 s).MR (0x0100 + (s.Sp + 255) % 256) = ((s.Pc + 2) % 65536) % 256 := by
  have hg : (if s.prevOpCode = s.MR s.Pc then s.loops + 1 else s.loops) ≤ 200 := by
    rw [hop]
    exact hguard
  have hf := tick_fetch s hstate hg
  rw [hop] at hf
  have hand : ∀ x : Nat, x &&& 0xFF = x % 256 := fun x => Nat.and_pow_two_sub_one_eq_mod x 8
  have hshr : ∀ x : Nat, x >>> 8 = x / 256 := fun x => Nat.shiftRight_eq_div_pow x 8
  refine ⟨?_, ?_, ?_, ?_, ?_, ?_, ?_⟩
  · intro k h1 h7
    interval_cases k <;>
    simp [CPU.tickN, hf, tick_execute, CPU.dispatch, CPU.execBRK, CPU.getInstructionCycles,
      CPU.push, CPU.MW]
  · simp [CPU.tickN, hf, tick_execute, CPU.dispatch, CPU.execBRK, CPU.getInstructionCycles,
      CPU.push, CPU.MW]
  · simp [CPU.tickN, hf, tick_execute, CPU.dispatch, CPU.execBRK, CPU.getInstructionCycles,
      CPU.push, CPU.MW, CPU.MR, MEM.read_write, hand, hshr]
    have hlt := byte_pair_lt (s.mem.read 65535) (s.mem.read 65534) (MR_lt s _) (MR_lt s _)
    rw [if_neg (by omega), if_neg (by omega), if_neg (by omega), if_neg (by omega),
      if_neg (by omega), if_neg (by omega), Nat.or_comm]
    exact Nat.mod_eq_of_lt hlt
  · simp [CPU.tickN, hf, tick_execute, CPU.dispatch, CPU.execBRK, CPU.getInstructionCycles,
      CPU.push, CPU.MW]
  · simp [CPU.tickN, hf, tick_execute, CPU.dispatch, CPU.execBRK, CPU.getInstructionCycles,
      CPU.push, CPU.MW, hand]
    omega
  · simp [CPU.tickN, hf, tick_execute, CPU.dispatch, CPU.execBRK, CPU.getInstructionCycles,
      CPU.push, CPU.MW, CPU.MR, MEM.read_write, hand, hshr]
    split_ifs <;> omega
  · simp [CPU.tickN, hf, tick_execute, CPU.dispatch, CPU.execBRK, CPU.getInstructionCycles,
      CPU.push, CPU.MW, CPU.MR, MEM.read_write, hand, hshr]
    intro h
    omega

/-- C12 witness: BRK fetched at 0x0000 right after `start_up` (SP = 0xFF). -/
theorem brk_vectoring_witness :
    ((CPU.fresh MEM.init).start_up MEM.init).state = State.FETCH ∧
    ((CPU.fresh MEM.init).start_up MEM.init).Sp = 0xFF ∧
    (CPU.tickN 8 ((CPU.fresh MEM.init).start_up MEM.init)).status.B = 1 ∧
    (CPU.tickN 8 ((CPU.fresh MEM.init).start_up MEM.init)).Sp = 0xFC ∧
    (CPU.tickN 8 ((CPU.fresh MEM.init).start_up MEM.init)).MR 0x01FE = 0x02 :=
  have h := brk_vectoring ((CPU.fresh MEM.init).start_up MEM.init) rfl (by decide) rfl
    (by decide)
  ⟨rfl, rfl, h.2.2.2.1, h.2.2.2.2.1, h.2.2.2.2.2.2⟩

/-- C13, the code at a failing input: BRK fetched at 0x0000 with SP = 0xFF and
flags C = Z = B = U = N = 1, I = D = V = 0.  The status byte is 0xB3, but the
fourth execute cycle stores 0x01, the value of the Break bit alone, at
0x0100 + ((0xFF - 2) mod 256) = 0x01FD. -/
theorem brk_pushes_break_bit_only :
    ({ (CPU.fresh MEM.init).start_up MEM.init with status := ⟨1, 1, 0, 0, 1, 1, 0, 1⟩ } : CPU).Sp
      = 0xFF ∧
    (⟨1, 1, 0, 0, 1, 1, 0, 1⟩ : Status).specByte = 0xB3 ∧
    (CPU.tickN 4 { (CPU.fresh MEM.init).start_up MEM.init with
      status := ⟨1, 1, 0, 0, 1, 1, 0, 1⟩ }).currentCycle = 4 ∧
    (CPU.tickN 4 { (CPU.fresh MEM.init).start_up MEM.init with
      status := ⟨1, 1, 0, 0, 1, 1, 0, 1⟩ }).MR 0x01FD = 0x00 ∧
    (CPU.tickN 5 { (CPU.fresh MEM.init).start_up MEM.init with
      status := ⟨1, 1, 0, 0, 1, 1, 0, 1⟩ }).MR 0x01FD = 0x01 ∧
    (CPU.tickN 5 { (CPU.fresh MEM.init).start_up MEM.init with
      status := ⟨1, 1, 0, 0, 1, 1, 0, 1⟩ }).Sp = 0xFC := by
  decide

/-! ## Branch target -/

/-- C15, the code at a failing input: BNE with offset 0xFE (-2 as a signed byte)
fetched at 0x0200 with Z = 0.  The byte after the operand is at 0x0202, so the
signed target is 0x0200; the engine returns to FETCH with PC = 0x0300, the
offset having been added as the unsigned value 254. -/
theorem bne_offset_unsigned :
    (CPU.loadedAt 0x0200 [0xD0, 0xFE]).status.Z = 0 ∧
    (CPU.tickN 2 (CPU.loadedAt 0x0200 [0xD0, 0xFE])).Pc = 0x0202 ∧
    (CPU.tickN 2 (CPU.loadedAt 0x0200 [0xD0, 0xFE])).offset = 0xFE ∧
    (CPU.tickN 3 (CPU.loadedAt 0x0200 [0xD0, 0xFE])).Pc = 0x0300 ∧
    (CPU.tickN 5 (CPU.loadedAt 0x0200 [0xD0, 0xFE])).state = State.FETCH ∧
    (CPU.tickN 5 (CPU.loadedAt 0x0200 [0xD0, 0xFE])).Pc = 0x0300 := by
  decide

/-! ## What one micro-operation leaves unchanged -/

/-- Members and flags that `case INS_ADC` never writes. -/
theorem execADC_frame (s : CPU) :
    s.execADC.loops = s.loops ∧
    s.execADC.prevOpCode = s.prevOpCode ∧
    s.execADC.opCode = s.opCode ∧
    s.execADC.status.I = s.status.I ∧
    s.execADC.status.D = s.status.D ∧
    s.execADC.status.B = s.status.B ∧
    s.execADC.status.U = s.status.U ∧
    s.execADC.status.V = s.status.V ∧
    s.execADC.mem = s.mem := by
  unfold CPU.execADC
  split_ifs <;>
  simp [CPU.readOperand, CPU.readLowByte, CPU.readHighByte, setCarry_eq, CPU.setZero,
    CPU.setNegative, CPU.calcEffectiveAdress, CPU.push, CPU.MW]

/-- Members and flags that `case INS_AND` never writes. -/
theorem execAND_frame (s : CPU) :
    s.execAND.loops = s.loops ∧
    s.execAND.prevOpCode = s.prevOpCode ∧
    s.execAND.opCode = s.opCode ∧
    s.execAND.status.C = s.status.C ∧
    s.execAND.status.I = s.status.I ∧
    s.execAND.status.D = s.status.D ∧
    s.execAND.status.B = s.status.B ∧
    s.execAND.status.U = s.status.U ∧
    s.execAND.status.V = s.status.V ∧
    s.execAND.mem = s.mem := by
  unfold CPU.execAND
  split_ifs <;>
  simp [CPU.readOperand, CPU.readLowByte, CPU.readHighByte, setCarry_eq, CPU.setZero,
    CPU.setNegative, CPU.calcEffectiveAdress, CPU.push, CPU.MW]

/-- Members and flags that `case INS_BNE` never writes. -/
theorem execBNE_frame (s : CPU) :
    s.execBNE.loops = s.loops ∧
    s.execBNE.prevOpCode = s.prevOpCode ∧
    s.execBNE.opCode = s.opCode ∧
    s.execBNE.status = s.status ∧
    s.execBNE.mem = s.mem := by
  unfold CPU.execBNE
  split_ifs <;>
  simp [CPU.readOperand, CPU.readLowByte, CPU.readHighByte, setCarry_eq, CPU.setZero,
    CPU.setNegative, CPU.calcEffectiveAdress, CPU.push, CPU.MW]

/-- Members and flags that `case INS_BRK` never writes. -/
theorem execBRK_frame (s : CPU) :
    s.execBRK.loops = s.loops ∧
    s.execBRK.prevOpCode = s.prevOpCode ∧
    s.execBRK.opCode = s.opCode ∧
    s.execBRK.status.C = s.status.C ∧
    s.execBRK.status.Z = s.status.Z ∧
    s.execBRK.status.I = s.status.I ∧
    s.execBRK.status.D = s.status.D ∧
    s.execBRK.status.U = s.status.U ∧
    s.execBRK.status.V = s.status.V ∧
    s.execBRK.status.N = s.status.N ∧
    (s.currentCycle ≠ 2 → s.currentCycle ≠ 3 → s.currentCycle ≠ 4 → s.execBRK.mem = s.mem) ∧
    (∀ a : Fin 65536, a.val ≠ (0x0100 + s.Sp) % 65536 →
      s.execBRK.mem.Data a = s.mem.Data a) := by
  unfold CPU.execBRK
  split_ifs <;>
  simp_all [CPU.readOperand, CPU.readLowByte, CPU.readHighByte, setCarry_eq, CPU.setZero,
    CPU.setNegative, CPU.calcEffectiveAdress, CPU.push, CPU.MW, MEM.write]

/-- Members and flags that `case INS_CLD` never writes. -/
theorem execCLD_frame (s : CPU) :
    s.execCLD.loops = s.loops ∧
    s.execCLD.prevOpCode = s.prevOpCode ∧
    s.execCLD.opCode = s.opCode ∧
    s.execCLD.status.C = s.status.C ∧
    s.execCLD.status.Z = s.status.Z ∧
    s.execCLD.status.I = s.status.I ∧
    s.execCLD.status.B = s.status.B ∧
    s.execCLD.status.U = s.status.U ∧
    s.execCLD.status.V = s.status.V ∧
    s.execCLD.status.N = s.status.N ∧
    s.execCLD.mem = s.mem := by
  unfold CPU.execCLD
  split_ifs <;>
  simp [CPU.readOperand, CPU.readLowByte, CPU.readHighByte, setCarry_eq, CPU.setZero,
    CPU.setNegative, CPU.calcEffectiveAdress, CPU.push, CPU.MW]

/-- Members and flags that `case INS_CPY` never writes. -/
theorem execCPY_frame (s : CPU) :
    s.execCPY.loops = s.loops ∧
    s.execCPY.prevOpCode = s.prevOpCode ∧
    s.execCPY.opCode = s.opCode ∧
    s.execCPY.status.I = s.status.I ∧
    s.execCPY.status.D = s.status.D ∧
    s.execCPY.status.B = s.status.B ∧
    s.execCPY.status.U = s.status.U ∧
    s.execCPY.status.V = s.status.V ∧
    s.execCPY.mem = s.mem := by
  unfold CPU.execCPY
  split_ifs <;>
  simp [CPU.readOperand, CPU.readLowByte, CPU.readHighByte, setCarry_eq, CPU.setZero,
    CPU.setNegative, CPU.calcEffectiveAdress, CPU.push, CPU.MW]

/-- Members and flags that `case INS_DEX` never writes. -/
theorem execDEX_frame (s : CPU) :
    s.execDEX.loops = s.loops ∧
    s.execDEX.prevOpCode = s.prevOpCode ∧
    s.execDEX.opCode = s.opCode ∧
    s.execDEX.status.C = s.status.C ∧
    s.execDEX.status.I = s.status.I ∧
    s.execDEX.status.D = s.status.D ∧
    s.execDEX.status.B = s.status.B ∧
    s.execDEX.status.U = s.status.U ∧
    s.execDEX.status.V = s.status.V ∧
    s.execDEX.mem = s.mem := by
  unfold CPU.execDEX
  split_ifs <;>
  simp [CPU.readOperand, CPU.readLowByte, CPU.readHighByte, setCarry_eq, CPU.setZero,
    CPU.setNegative, CPU.calcEffectiveAdress, CPU.push, CPU.MW]

/-- Members and flags that `case INS_DEY` never writes. -/
theorem execDEY_frame (s : CPU) :
    s.execDEY.loops = s.loops ∧
    s.execDEY.prevOpCode = s.prevOpCode ∧
    s.execDEY.opCode = s.opCode ∧
    s.execDEY.status.C = s.status.C ∧
    s.execDEY.status.I = s.status.I ∧
    s.execDEY.status.D = s.status.D ∧
    s.execDEY.status.B = s.status.B ∧
    s.execDEY.status.U = s.status.U ∧
    s.execDEY.status.V = s.status.V ∧
    s.execDEY.mem = s.mem := by
  unfold CPU.execDEY
  split_ifs <;>
  simp [CPU.readOperand, CPU.readLowByte, CPU.readHighByte, setCarry_eq, CPU.setZero,
    CPU.setNegative, CPU.calcEffectiveAdress, CPU.push, CPU.MW]

/-- Members and flags that `case INS_JMP` never writes. -/
theorem execJMP_frame (s : CPU) :
    s.execJMP.loops = s.loops ∧
    s.execJMP.prevOpCode = s.prevOpCode ∧
    s.execJMP.opCode = s.opCode ∧
    s.execJMP.status = s.status ∧
    s.execJMP.mem = s.mem := by
  unfold CPU.execJMP
  split_ifs <;>
  simp [CPU.readOperand, CPU.readLowByte, CPU.readHighByte, setCarry_eq, CPU.setZero,
    CPU.setNegative, CPU.calcEffectiveAdress, CPU.push, CPU.MW]

/-- Members and flags that `case INS_LDA` never writes. -/
theorem execLDA_frame (s : CPU) :
    s.execLDA.loops = s.loops ∧
    s.execLDA.prevOpCode = s.prevOpCode ∧
    s.execLDA.opCode = s.opCode ∧
    s.execLDA.status.C = s.status.C ∧
    s.execLDA.status.I = s.status.I ∧
    s.execLDA.status.D = s.status.D ∧
    s.execLDA.status.B = s.status.B ∧
    s.execLDA.status.U = s.status.U ∧
    s.execLDA.status.V = s.status.V ∧
    s.execLDA.mem = s.mem := by
  unfold CPU.execLDA
  split_ifs <;>
  simp [CPU.readOperand, CPU.readLowByte, CPU.readHighByte, setCarry_eq, CPU.setZero,
    CPU.setNegative, CPU.calcEffectiveAdress, CPU.push, CPU.MW]

/-- Members and flags that `case INS_LDX` never writes. -/
theorem execLDX_frame (s : CPU) :
    s.execLDX.loops = s.loops ∧
    s.execLDX.prevOpCode = s.prevOpCode ∧
    s.execLDX.opCode = s.opCode ∧
    s.execLDX.status.C = s.status.C ∧
    s.execLDX.status.I = s.status.I ∧
    s.execLDX.status.D = s.status.D ∧
    s.execLDX.status.B = s.status.B ∧
    s.execLDX.status.U = s.status.U ∧
    s.execLDX.status.V = s.status.V ∧
    s.execLDX.mem = s.mem := by
  unfold CPU.execLDX
  split_ifs <;>
  simp [CPU.readOperand, CPU.readLowByte, CPU.readHighByte, setCarry_eq, CPU.setZero,
    CPU.setNegative, CPU.calcEffectiveAdress, CPU.push, CPU.MW]

/-- Members and flags that `case INS_LDY` never writes. -/
theorem execLDY_frame (s : CPU) :
    s.execLDY.loops = s.loops ∧
    s.execLDY.prevOpCode = s.prevOpCode ∧
    s.execLDY.opCode = s.opCode ∧
    s.execLDY.status.C = s.status.C ∧
    s.execLDY.status.I = s.status.I ∧
    s.execLDY.status.D = s.status.D ∧
    s.execLDY.status.B = s.status.B ∧
    s.execLDY.status.U = s.status.U ∧
    s.execLDY.status.V = s.status.V ∧
    s.execLDY.mem = s.mem := by
  unfold CPU.execLDY
  split_ifs <;>
  simp [CPU.readOperand, CPU.readLowByte, CPU.readHighByte, setCarry_eq, CPU.setZero,
    CPU.setNegative, CPU.calcEffectiveAdress, CPU.push, CPU.MW]

/-- Members and flags that `case INS_NOP` never writes. -/
theorem execNOP_frame (s : CPU) :
    s.execNOP.loops = s.loops ∧
    s.execNOP.prevOpCode = s.prevOpCode ∧
    s.execNOP.opCode = s.opCode ∧
    s.execNOP.status = s.status ∧
    s.execNOP.mem = s.mem := by
  unfold CPU.execNOP
  split_ifs <;>
  simp [CPU.readOperand, CPU.readLowByte, CPU.readHighByte, setCarry_eq, CPU.setZero,
    CPU.setNegative, CPU.calcEffectiveAdress, CPU.push, CPU.MW]

/-- Members and flags that `case INS_STA` never writes. -/
theorem execSTA_frame (s : CPU) :
    s.execSTA.loops = s.loops ∧
    s.execSTA.prevOpCode = s.prevOpCode ∧
    s.execSTA.opCode = s.opCode ∧
    s.execSTA.status = s.status ∧
    (s.currentCycle ≠ 4 → s.execSTA.mem = s.mem) ∧
    (∀ a : Fin 65536, a.val ≠ s.effectiveAdress % 65536 →
      s.execSTA.mem.Data a = s.mem.Data a) := by
  unfold CPU.execSTA
  split_ifs <;>
  simp_all [CPU.readOperand, CPU.readLowByte, CPU.readHighByte, setCarry_eq, CPU.setZero,
    CPU.setNegative, CPU.calcEffectiveAdress, CPU.push, CPU.MW, MEM.write]

/-- Members and flags that `case INS_TXS` never writes. -/
theorem execTXS_frame (s : CPU) :
    s.execTXS.loops = s.loops ∧
    s.execTXS.prevOpCode = s.prevOpCode ∧
    s.execTXS.opCode = s.opCode ∧
    s.execTXS.status = s.status ∧
    s.execTXS.mem = s.mem := by
  unfold CPU.execTXS
  split_ifs <;>
  simp [CPU.readOperand, CPU.readLowByte, CPU.readHighByte, setCarry_eq, CPU.setZero,
    CPU.setNegative, CPU.calcEffectiveAdress, CPU.push, CPU.MW]


/-- Case analysis on the opcode switch: a property of `dispatch` follows from the
same property of each `case` body and of the untouched state for any other opcode. -/
theorem dispatch_cases (s : CPU) (P : CPU → Prop)
    (hADC : s.opCode = 0x69 → P s.execADC)
    (hAND : s.opCode = 0x29 → P s.execAND)
    (hBNE : s.opCode = 0xD0 → P s.execBNE)
    (hBRK : s.opCode = 0x00 → P s.execBRK)
    (hCLD : s.opCode = 0xD8 → P s.execCLD)
    (hCPY : s.opCode = 0xCC → P s.execCPY)
    (hDEX : s.opCode = 0xCA → P s.execDEX)
    (hDEY : s.opCode = 0x88 → P s.execDEY)
    (hJMP : s.opCode = 0x4C → P s.execJMP)
    (hLDA : s.opCode = 0xA9 → P s.execLDA)
    (hLDX : s.opCode = 0xA2 → P s.execLDX)
    (hLDY : s.opCode = 0xA0 → P s.execLDY)
    (hNOP : s.opCode = 0xEA → P s.execNOP)
    (hSTA : s.opCode = 0x8D → P s.execSTA)
    (hTXS : s.opCode = 0x9A → P s.execTXS)
    (hother : s.opCode ∉ [0x69, 0x29, 0xD0, 0x00, 0xD8, 0xCC, 0xCA, 0x88, 0x4C, 0xA9, 0xA2, 0xA0, 0xEA, 0x8D, 0x9A] → P s) :
    P s.dispatch := by
  unfold CPU.dispatch
  by_cases c1 : s.opCode = CPU.INS_ADC_IMMEDIATE
  · rw [if_pos c1]
    exact hADC c1
  rw [if_neg c1]
  by_cases c2 : s.opCode = CPU.INS_AND_IMMEDIATE
  · rw [if_pos c2]
    exact hAND c2
  rw [if_neg c2]
  by_cases c3 : s.opCode = CPU.INS_BNE_RELATIVE
  · rw [if_pos c3]
    exact hBNE c3
  rw [if_neg c3]
  by_cases c4 : s.opCode = CPU.INS_BRK_IMPLIED
  · rw [if_pos c4]
    exact hBRK c4
  rw [if_neg c4]
  by_cases c5 : s.opCode = CPU.INS_CLD_IMPLIED
  · rw [if_pos c5]
    exact hCLD c5
  rw [if_neg c5]
  by_cases c6 : s.opCode = CPU.INS_CPY_ABSOLUTE
  · rw [if_pos c6]
    exact hCPY c6
  rw [if_neg c6]
  by_cases c7 : s.opCode = CPU.INS_DEX_IMPLIED
  · rw [if_pos c7]
    exact hDEX c7
  rw [if_neg c7]
  by_cases c8 : s.opCode = CPU.INS_DEY_IMPLIED
  · rw [if_pos c8]
    exact hDEY c8
  rw [if_neg c8]
  by_cases c9 : s.opCode = CPU.INS_JMP_ABSOLUTE
  · rw [if_pos c9]
    exact hJMP c9
  rw [if_neg c9]
  by_cases c10 : s.opCode = CPU.INS_LDA_IMMEDIATE
  · rw [if_pos c10]
    exact hLDA c10
  rw [if_neg c10]
  by_cases c11 : s.opCode = CPU.INS_LDX_IMMEDIATE
  · rw [if_pos c11]
    exact hLDX c11
  rw [if_neg c11]
  by_cases c12 : s.opCode = CPU.INS_LDY_IMMEDIATE
  · rw [if_pos c12]
    exact hLDY c12
  rw [if_neg c12]
  by_cases c13 : s.opCode = CPU.INS_NOP_IMPLIED
  · rw [if_pos c13]
    exact hNOP c13
  rw [if_neg c13]
  by_cases c14 : s.opCode = CPU.INS_STA_ABSOLUTE
  · rw [if_pos c14]
    exact hSTA c14
  rw [if_neg c14]
  by_cases c15 : s.opCode = CPU.INS_TXS_IMPLIED
  · rw [if_pos c15]
    exact hTXS c15
  rw [if_neg c15]
  apply hother
  simp only [List.mem_cons, List.mem_singleton, List.not_mem_nil, or_false, not_or]
  exact ⟨c1, c2, c3, c4, c5, c6, c7, c8, c9, c10, c11, c12, c13, c14, c15⟩

/-- The opcode switch never writes `loops`, `prevOpCode` or `opCode`. -/
theorem dispatch_frame (s : CPU) :
    s.dispatch.loops = s.loops ∧ s.dispatch.prevOpCode = s.prevOpCode ∧
    s.dispatch.opCode = s.opCode := by
  apply dispatch_cases s (fun t => t.loops = s.loops ∧ t.prevOpCode = s.prevOpCode ∧
    t.opCode = s.opCode)
  · exact fun _ => ⟨(execADC_frame s).1, (execADC_frame s).2.1, (execADC_frame s).2.2.1⟩
  · exact fun _ => ⟨(execAND_frame s).1, (execAND_frame s).2.1, (execAND_frame s).2.2.1⟩
  · exact fun _ => ⟨(execBNE_frame s).1, (execBNE_frame s).2.1, (execBNE_frame s).2.2.1⟩
  · exact fun _ => ⟨(execBRK_frame s).1, (execBRK_frame s).2.1, (execBRK_frame s).2.2.1⟩
  · exact fun _ => ⟨(execCLD_frame s).1, (execCLD_frame s).2.1, (execCLD_frame s).2.2.1⟩
  · exact fun _ => ⟨(execCPY_frame s).1, (execCPY_frame s).2.1, (execCPY_frame s).2.2.1⟩
  · exact fun _ => ⟨(execDEX_frame s).1, (execDEX_frame s).2.1, (execDEX_frame s).2.2.1⟩
  · exact fun _ => ⟨(execDEY_frame s).1, (execDEY_frame s).2.1, (execDEY_frame s).2.2.1⟩
  · exact fun _ => ⟨(execJMP_frame s).1, (execJMP_frame s).2.1, (execJMP_frame s).2.2.1⟩
  · exact fun _ => ⟨(execLDA_frame s).1, (execLDA_frame s).2.1, (execLDA_frame s).2.2.1⟩
  · exact fun _ => ⟨(execLDX_frame s).1, (execLDX_frame s).2.1, (execLDX_frame s).2.2.1⟩
  · exact fun _ => ⟨(execLDY_frame s).1, (execLDY_frame s).2.1, (execLDY_frame s).2.2.1⟩
  · exact fun _ => ⟨(execNOP_frame s).1, (execNOP_frame s).2.1, (execNOP_frame s).2.2.1⟩
  · exact fun _ => ⟨(execSTA_frame s).1, (execSTA_frame s).2.1, (execSTA_frame s).2.2.1⟩
  · exact fun _ => ⟨(execTXS_frame s).1, (execTXS_frame s).2.1, (execTXS_frame s).2.2.1⟩
  · exact fun _ => ⟨rfl, rfl, rfl⟩

/-- Flags that the opcode switch leaves unchanged, by opcode. -/
theorem dispatch_flags (s : CPU) :
    (s.opCode ≠ 0x69 → s.opCode ≠ 0xCC → s.dispatch.status.C = s.status.C) ∧
    (s.opCode ∉ [0xA9, 0xA2, 0xA0, 0x29, 0xCA, 0x88, 0x69, 0xCC] →
      s.dispatch.status.Z = s.status.Z ∧ s.dispatch.status.N = s.status.N) ∧
    s.dispatch.status.I = s.status.I ∧
    (s.opCode ≠ 0xD8 → s.dispatch.status.D = s.status.D) ∧
    (s.opCode ≠ 0x00 → s.dispatch.status.B = s.status.B) ∧
    s.dispatch.status.U = s.status.U ∧
    s.dispatch.status.V = s.status.V := by
  apply dispatch_cases s (fun t =>
    (s.opCode ≠ 0x69 → s.opCode ≠ 0xCC → t.status.C = s.status.C) ∧
    (s.opCode ∉ [0xA9, 0xA2, 0xA0, 0x29, 0xCA, 0x88, 0x69, 0xCC] →
      t.status.Z = s.status.Z ∧ t.status.N = s.status.N) ∧
    t.status.I = s.status.I ∧
    (s.opCode ≠ 0xD8 → t.status.D = s.status.D) ∧
    (s.opCode ≠ 0x00 → t.status.B = s.status.B) ∧
    t.status.U = s.status.U ∧
    t.status.V = s.status.V)
  · intro h
    simp [h, execADC_frame s]
  · intro h
    simp [h, execAND_frame s]
  · intro h
    simp [h, execBNE_frame s]
  · intro h
    simp [h, execBRK_frame s]
  · intro h
    simp [h, execCLD_frame s]
  · intro h
    simp [h, execCPY_frame s]
  · intro h
    simp [h, execDEX_frame s]
  · intro h
    simp [h, execDEY_frame s]
  · intro h
    simp [h, execJMP_frame s]
  · intro h
    simp [h, execLDA_frame s]
  · intro h
    simp [h, execLDX_frame s]
  · intro h
    simp [h, execLDY_frame s]
  · intro h
    simp [h, execNOP_frame s]
  · intro h
    simp [h, execSTA_frame s]
  · intro h
    simp [h, execTXS_frame s]
  · intro h
    simp

/-- Memory bytes that the opcode switch leaves unchanged, by opcode and cycle. -/
theorem dispatch_mem (s : CPU) :
    (s.opCode ≠ 0x8D → s.opCode ≠ 0x00 → s.dispatch.mem = s.mem) ∧
    (s.opCode = 0x8D → s.currentCycle ≠ 4 → s.dispatch.mem = s.mem) ∧
    (s.opCode = 0x8D → ∀ a : Fin 65536, a.val ≠ s.effectiveAdress % 65536 →
      s.dispatch.mem.Data a = s.mem.Data a) ∧
    (s.opCode = 0x00 → s.currentCycle ≠ 2 → s.currentCycle ≠ 3 → s.currentCycle ≠ 4 →
      s.dispatch.mem = s.mem) ∧
    (s.opCode = 0x00 → ∀ a : Fin 65536, a.val ≠ (0x0100 + s.Sp) % 65536 →
      s.dispatch.mem.Data a = s.mem.Data a) := by
  apply dispatch_cases s (fun t =>
    (s.opCode ≠ 0x8D → s.opCode ≠ 0x00 → t.mem = s.mem) ∧
    (s.opCode = 0x8D → s.currentCycle ≠ 4 → t.mem = s.mem) ∧
    (s.opCode = 0x8D → ∀ a : Fin 65536, a.val ≠ s.effectiveAdress % 65536 →
      t.mem.Data a = s.mem.Data a) ∧
    (s.opCode = 0x00 → s.currentCycle ≠ 2 → s.currentCycle ≠ 3 → s.currentCycle ≠ 4 →
      t.mem = s.mem) ∧
    (s.opCode = 0x00 → ∀ a : Fin 65536, a.val ≠ (0x0100 + s.Sp) % 65536 →
      t.mem.Data a = s.mem.Data a))
  · intro h
    simp [h, execADC_frame s]
  · intro h
    simp [h, execAND_frame s]
  · intro h
    simp [h, execBNE_frame s]
  · intro h
    have hf := execBRK_frame s
    refine ⟨fun _ h0 => absurd h h0, fun h0 => ?_, fun h0 => ?_,
      fun _ => hf.2.2.2.2.2.2.2.2.2.2.1, fun _ => hf.2.2.2.2.2.2.2.2.2.2.2⟩ <;>
    rw [h] at h0 <;> exact absurd h0 (by decide)
  · intro h
    simp [h, execCLD_frame s]
  · intro h
    simp [h, execCPY_frame s]
  · intro h
    simp [h, execDEX_frame s]
  · intro h
    simp [h, execDEY_frame s]
  · intro h
    simp [h, execJMP_frame s]
  · intro h
    simp [h, execLDA_frame s]
  · intro h
    simp [h, execLDX_frame s]
  · intro h
    simp [h, execLDY_frame s]
  · intro h
    simp [h, execNOP_frame s]
  · intro h
    have hf := execSTA_frame s
    refine ⟨fun h0 _ => absurd h h0, fun _ => hf.2.2.2.2.1, fun _ => hf.2.2.2.2.2,
      fun h0 => ?_, fun h0 => ?_⟩ <;>
    rw [h] at h0 <;> exact absurd h0 (by decide)
  · intro h
    simp [h, execTXS_frame s]
  · intro h
    simp only [List.mem_cons, List.mem_singleton, List.not_mem_nil, or_false, not_or] at h
    simp [h]

/-! ## Loop-detection guard -/

/-- A fetch tick, guard tripped or not: flags and memory are kept, the repeat
counter and the executed opcode follow the guard. -/
theorem tick_fetch_guard (s : CPU) (hstate : s.state = State.FETCH) :
    s.tick.status = s.status ∧ s.tick.mem = s.mem ∧
    s.tick.loops = (if s.prevOpCode = s.MR s.Pc then intIncr s.loops else s.loops) ∧
    s.tick.prevOpCode = s.MR s.Pc ∧
    s.tick.opCode = (if s.tick.loops > 200 then 0x00 else s.MR s.Pc) ∧
    s.tick.state = State.EXECUTE := by
  unfold CPU.tick
  rw [hstate]
  by_cases h : s.prevOpCode = s.MR s.Pc
  · by_cases hg : intIncr s.loops > 200
    · simp [h, hg]
    · simp [h, hg]
  · by_cases hg : s.loops > 200
    · simp [h, hg]
    · simp [h, hg]

/-- An execute tick keeps the repeat counter, the previous opcode and the opcode. -/
theorem tick_execute_guard (s : CPU) (hstate : s.state = State.EXECUTE) :
    s.tick.loops = s.loops ∧ s.tick.prevOpCode = s.prevOpCode ∧ s.tick.opCode = s.opCode := by
  rw [tick_execute s hstate]
  exact dispatch_frame s

/-- Ticking `a + b` times is ticking `a` times and then `b` times. -/
theorem tickN_add (a b : Nat) (s : CPU) :
    CPU.tickN (a + b) s = CPU.tickN b (CPU.tickN a s) := by
  induction a generalizing s with
  | zero => simp [CPU.tickN]
  | succ a ih =>
    have h : a + 1 + b = (a + b) + 1 := by omega
    rw [h]
    show CPU.tickN (a + b) s.tick = CPU.tickN b (CPU.tickN a s.tick)
    exact ih s.tick

/-- The repeating fetches of `a + b` ticks are those of the first `a` and of the next `b`. -/
theorem repeatFetches_add (a b : Nat) (s : CPU) :
    repeatFetches (a + b) s = repeatFetches a s + repeatFetches b (CPU.tickN a s) := by
  induction a generalizing s with
  | zero => simp [repeatFetches, CPU.tickN]
  | succ a ih =>
    have h : a + 1 + b = (a + b) + 1 := by omega
    rw [h]
    cases hs : s.state <;> simp [repeatFetches, hs, CPU.tickN, ih, Nat.add_assoc]

/-- Below INT_MAX the repeat counter is its start value plus the repeating fetches so far. -/
theorem tickN_loops_count (n : Nat) : ∀ s : CPU,
    s.loops + (repeatFetches n s : Int) ≤ 2147483647 →
    (CPU.tickN n s).loops = s.loops + (repeatFetches n s : Int) := by
  induction n with
  | zero =>
    intro s _
    simp [CPU.tickN, repeatFetches]
  | succ n ih =>
    intro s hle
    show (CPU.tickN n s.tick).loops = _
    cases hs : s.state with
    | FETCH =>
      have hf := (tick_fetch_guard s hs).2.2.1
      have hr : repeatFetches (n + 1) s
          = (if s.prevOpCode = s.MR s.Pc then 1 else 0) + repeatFetches n s.tick := by
        simp [repeatFetches, hs]
      rw [hr] at hle ⊢
      by_cases h : s.prevOpCode = s.MR s.Pc
      · rw [if_pos h] at hf hle ⊢
        push_cast at hle ⊢
        have hne : ¬ (s.loops = 2147483647) := by omega
        have hl : s.tick.loops = s.loops + 1 := by
          rw [hf]
          simp [intIncr, hne]
        rw [ih s.tick (by rw [hl]; omega), hl]
        omega
      · rw [if_neg h] at hf hle ⊢
        push_cast at hle ⊢
        rw [ih s.tick (by rw [hf]; omega), hf]
        omega
    | EXECUTE =>
      have he := (tick_execute_guard s hs).1
      have hr : repeatFetches (n + 1) s = repeatFetches n s.tick := by
        simp [repeatFetches, hs]
      rw [hr] at hle ⊢
      rw [ih s.tick (by rw [he]; exact hle), he]

/-- C16, amended: the guard counts, without ever restarting, the fetches whose byte
equals the member `prevOpCode` (the byte read by the fetch before; at the first
fetch, the value the member holds then).  With `loops` below INT_MAX a fetch tick
adds one to `loops` exactly when the byte read equals `prevOpCode` and otherwise
leaves `loops` as it is; it records the byte as `prevOpCode` and executes BRK
instead of the byte read exactly when `loops` after this fetch exceeds 200; an
execute tick changes neither.  So over `n` ticks from count `c`: the count
becomes `c` plus the number of such repeating fetches (while that sum is at most
INT_MAX); while the sum is at most 200 every fetch among those ticks executes
the opcode actually read from memory; and a fetch that brings the sum above 200
executes BRK. -/
theorem guard_counts_all_repeats (s : CPU) :
    (s.state = State.FETCH → s.loops < 2147483647 →
      s.tick.loops = (if s.prevOpCode = s.MR s.Pc then s.loops + 1 else s.loops)) ∧
    (s.state = State.FETCH →
      s.tick.prevOpCode = s.MR s.Pc ∧
      s.tick.opCode = (if s.tick.loops > 200 then 0x00 else s.MR s.Pc)) ∧
    (s.state = State.EXECUTE → s.tick.loops = s.loops ∧ s.tick.prevOpCode = s.prevOpCode) ∧
    (∀ n, s.loops + (repeatFetches n s : Int) ≤ 2147483647 →
      (CPU.tickN n s).loops = s.loops + (repeatFetches n s : Int)) ∧
    (∀ n, s.loops + (repeatFetches n s : Int) ≤ 200 →
      ∀ k, k < n → (CPU.tickN k s).state = State.FETCH →
        (CPU.tickN (k + 1) s).opCode = (CPU.tickN k s).MR (CPU.tickN k s).Pc) ∧
    (∀ k, (CPU.tickN k s).state = State.FETCH →
      200 < s.loops + (repeatFetches (k + 1) s : Int) →
      s.loops + (repeatFetches (k + 1) s : Int) ≤ 2147483647 →
        (CPU.tickN (k + 1) s).opCode = 0x00) := by
  refine ⟨fun h hlt => ?_, fun h => ?_, fun h => ?_, fun n hn => tickN_loops_count n s hn,
    fun n hn k hk hstate => ?_, fun k hstate hgt hle => ?_⟩
  · have hf := tick_fetch_guard s h
    have hne : ¬ (s.loops = 2147483647) := by omega
    rw [hf.2.2.1]
    simp [intIncr, hne]
  · have hf := tick_fetch_guard s h
    exact ⟨hf.2.2.2.1, hf.2.2.2.2.1⟩
  · have he := tick_execute_guard s h
    exact ⟨he.1, he.2.1⟩
  · have hsplit := repeatFetches_add (k + 1) (n - (k + 1)) s
    have hkn : k + 1 + (n - (k + 1)) = n := by omega
    rw [hkn] at hsplit
    have hle : s.loops + (repeatFetches (k + 1) s : Int) ≤ 200 := by
      rw [hsplit] at hn
      push_cast at hn
      omega
    have hc := tickN_loops_count (k + 1) s (by omega)
    have hf := tick_fetch_guard (CPU.tickN k s) hstate
    rw [tickN_succ] at hc ⊢
    rw [hf.2.2.2.2.1, if_neg (by rw [hc]; omega)]
  · have hc := tickN_loops_count (k + 1) s hle
    have hf := tick_fetch_guard (CPU.tickN k s) hstate
    rw [tickN_succ] at hc ⊢
    rw [hf.2.2.2.2.1, if_pos (by rw [hc]; omega)]

/-- C16 witness: a machine that has counted 200 repeats and last fetched NOP
fetches NOP again: the count becomes 201 and the fetch executes BRK. -/
theorem guard_counts_all_repeats_witness :
    ({ CPU.loadedAt 0x0000 [0xEA] with prevOpCode := 0xEA, loops := 200 } : CPU).state
      = State.FETCH ∧
    ({ CPU.loadedAt 0x0000 [0xEA] with prevOpCode := 0xEA, loops := 200 } : CPU).MR 0x0000
      = 0xEA ∧
    ({ CPU.loadedAt 0x0000 [0xEA] with prevOpCode := 0xEA, loops := 200 } : CPU).tick.loops
      = 201 ∧
    ({ CPU.loadedAt 0x0000 [0xEA] with prevOpCode := 0xEA, loops := 200 } : CPU).tick.opCode
      = 0x00 :=
  have h := guard_counts_all_repeats
    { CPU.loadedAt 0x0000 [0xEA] with prevOpCode := 0xEA, loops := 200 }
  ⟨rfl, rfl, h.1 rfl (by decide), (h.2.2.2.2.2 0 rfl (by decide) (by decide))⟩

/-- The fetches of `a + b` ticks are those of the first `a` and then of the next `b`. -/
theorem fetchedOpcodes_add (a b : Nat) (s : CPU) :
    fetchedOpcodes (a + b) s = fetchedOpcodes a s ++ fetchedOpcodes b (CPU.tickN a s) := by
  induction a generalizing s with
  | zero => simp [fetchedOpcodes, CPU.tickN]
  | succ a ih =>
    have h : a + 1 + b = (a + b) + 1 := by omega
    rw [h]
    cases hs : s.state <;> simp [fetchedOpcodes, hs, CPU.tickN, ih]

/-- The loop program as read from memory. -/
theorem guardProgram_read :
    (CPU.loadedAt 0x0000 guardProgram).mem.read 0 = 0xEA ∧
    (CPU.loadedAt 0x0000 guardProgram).mem.read 1 = 0xEA ∧
    (CPU.loadedAt 0x0000 guardProgram).mem.read 2 = 0x4C ∧
    (CPU.loadedAt 0x0000 guardProgram).mem.read 3 = 0x00 ∧
    (CPU.loadedAt 0x0000 guardProgram).mem.read 4 = 0x00 := by
  decide

/-- One turn of the loop program: ten ticks fetch NOP, NOP, JMP, come back to
address 0 and add one to the repeat counter. -/
theorem guardProgram_turn (s : CPU) (l : Int)
    (hmem : s.mem = (CPU.loadedAt 0x0000 guardProgram).mem) (hpc : s.Pc = 0)
    (hstate : s.state = State.FETCH) (hl : s.loops = l) (hprev : s.prevOpCode ≠ 0xEA)
    (hlt : l < 200) :
    (CPU.tickN 10 s).mem = (CPU.loadedAt 0x0000 guardProgram).mem ∧ (CPU.tickN 10 s).Pc = 0 ∧
    (CPU.tickN 10 s).state = State.FETCH ∧ (CPU.tickN 10 s).loops = l + 1 ∧
    (CPU.tickN 10 s).prevOpCode ≠ 0xEA ∧
    fetchedOpcodes 10 s = [0xEA, 0xEA, 0x4C] := by
  obtain ⟨m0, m1, m2, m3, m4⟩ := guardProgram_read
  obtain ⟨mem, A, X, Y, Pc, Sp, halted, cyc, cur, op, prev, loops, operand, lo, hi, ea,
    off, oldPc, st, status⟩ := s
  simp only at hmem hpc hstate hl hprev
  subst hmem hpc hstate hl
  have h0 : ¬ (200 < loops) := by omega
  have h1 : ¬ (200 < loops + 1) := by omega
  have h2 : ¬ (loops = 2147483647) := by omega
  simp [CPU.tickN, fetchedOpcodes, CPU.tick, CPU.executeInstructionCycle, CPU.dispatch,
    CPU.execNOP, CPU.execJMP, CPU.getInstructionCycles, CPU.readLowByte, CPU.readHighByte,
    CPU.calcEffectiveAdress, CPU.MR, intIncr, m0, m1, m2, m3, m4, hprev, h0, h1, h2]



/-- Repeated turns of the loop program. -/
theorem guardProgram_turns (n : Nat) : ∀ (s : CPU) (l : Int),
    s.mem = (CPU.loadedAt 0x0000 guardProgram).mem → s.Pc = 0 → s.state = State.FETCH →
    s.loops = l → s.prevOpCode ≠ 0xEA → l + n ≤ 200 →
    (CPU.tickN (10 * n) s).mem = (CPU.loadedAt 0x0000 guardProgram).mem ∧
    (CPU.tickN (10 * n) s).Pc = 0 ∧ (CPU.tickN (10 * n) s).state = State.FETCH ∧
    (CPU.tickN (10 * n) s).loops = l + n ∧ (CPU.tickN (10 * n) s).prevOpCode ≠ 0xEA ∧
    fetchedOpcodes (10 * n) s = (List.replicate n [0xEA, 0xEA, 0x4C]).flatten := by
  induction n with
  | zero =>
    intro s l hmem hpc hstate hl hprev _
    simp [CPU.tickN, fetchedOpcodes, hmem, hpc, hstate, hl, hprev]
  | succ n ih =>
    intro s l hmem hpc hstate hl hprev hle
    have ht := guardProgram_turn s l hmem hpc hstate hl hprev (by omega)
    have hn := ih (CPU.tickN 10 s) (l + 1) ht.1 ht.2.1 ht.2.2.1 ht.2.2.2.1 ht.2.2.2.2.1
      (by push_cast at hle ⊢; omega)
    have h10 : 10 * (n + 1) = 10 + 10 * n := by omega
    rw [h10, tickN_add, fetchedOpcodes_add, ht.2.2.2.2.2, hn.2.2.2.2.2]
    refine ⟨hn.1, hn.2.1, hn.2.2.1, ?_, hn.2.2.2.2.1, ?_⟩
    · rw [hn.2.2.2.1]
      push_cast
      omega
    · simp [List.replicate_succ]

/-- After 200 turns the next two fetches read NOP twice and the second one trips the guard. -/
theorem guardProgram_trip (s : CPU)
    (hmem : s.mem = (CPU.loadedAt 0x0000 guardProgram).mem) (hpc : s.Pc = 0)
    (hstate : s.state = State.FETCH) (hl : s.loops = 200) (hprev : s.prevOpCode ≠ 0xEA) :
    fetchedOpcodes 4 s = [0xEA, 0xEA] ∧ (CPU.tickN 3 s).state = State.FETCH ∧
    (CPU.tickN 3 s).MR (CPU.tickN 3 s).Pc = 0xEA ∧ (CPU.tickN 4 s).opCode = 0x00 ∧
    (CPU.tickN 4 s).loops = 201 := by
  obtain ⟨m0, m1, m2, m3, m4⟩ := guardProgram_read
  obtain ⟨mem, A, X, Y, Pc, Sp, halted, cyc, cur, op, prev, loops, operand, lo, hi, ea,
    off, oldPc, st, status⟩ := s
  simp only at hmem hpc hstate hl hprev
  subst hmem hpc hstate hl
  simp [CPU.tickN, fetchedOpcodes, CPU.tick, CPU.executeInstructionCycle, CPU.dispatch,
    CPU.execNOP, CPU.getInstructionCycles, CPU.MR, intIncr, m0, m1, m2, m3, m4, hprev]

/-- C16, counterexample to the claim as stated: the program `NOP; NOP; JMP 0x0000`
run from a fresh machine.  Its first 2004 ticks fetch NOP, NOP, JMP two hundred
times and then NOP, NOP, so no opcode is ever fetched more than twice in a row;
yet the fetch at tick 2004 reads 0xEA and executes 0x00 (BRK).  The count is 1
after the second NOP and still 1 after the JMP fetched next: the different
opcode did not restart it. -/
theorem guard_trips_without_long_run :
    fetchedOpcodes 2004 (CPU.loadedAt 0x0000 guardProgram)
      = (List.replicate 200 [0xEA, 0xEA, 0x4C]).flatten ++ [0xEA, 0xEA] ∧
    (CPU.tickN 2003 (CPU.loadedAt 0x0000 guardProgram)).state = State.FETCH ∧
    (CPU.tickN 2003 (CPU.loadedAt 0x0000 guardProgram)).MR
      (CPU.tickN 2003 (CPU.loadedAt 0x0000 guardProgram)).Pc = 0xEA ∧
    (CPU.tickN 2004 (CPU.loadedAt 0x0000 guardProgram)).opCode = 0x00 ∧
    (CPU.tickN 6 (CPU.loadedAt 0x0000 guardProgram)).loops = 1 ∧
    (CPU.tickN 7 (CPU.loadedAt 0x0000 guardProgram)).prevOpCode = 0x4C ∧
    (CPU.tickN 7 (CPU.loadedAt 0x0000 guardProgram)).loops = 1 := by
  have h200 := guardProgram_turns 200 (CPU.loadedAt 0x0000 guardProgram) 0 rfl rfl rfl rfl
    (by decide) (by decide)
  have htrip := guardProgram_trip (CPU.tickN (10 * 200) (CPU.loadedAt 0x0000 guardProgram))
    h200.1 h200.2.1 h200.2.2.1 (by rw [h200.2.2.2.1]; norm_num) h200.2.2.2.2.1
  have e3 : CPU.tickN 2003 (CPU.loadedAt 0x0000 guardProgram)
      = CPU.tickN 3 (CPU.tickN (10 * 200) (CPU.loadedAt 0x0000 guardProgram)) :=
    tickN_add (10 * 200) 3 _
  have e4 : CPU.tickN 2004 (CPU.loadedAt 0x0000 guardProgram)
      = CPU.tickN 4 (CPU.tickN (10 * 200) (CPU.loadedAt 0x0000 guardProgram)) :=
    tickN_add (10 * 200) 4 _
  have ef : fetchedOpcodes 2004 (CPU.loadedAt 0x0000 guardProgram)
      = fetchedOpcodes (10 * 200) (CPU.loadedAt 0x0000 guardProgram) ++
        fetchedOpcodes 4 (CPU.tickN (10 * 200) (CPU.loadedAt 0x0000 guardProgram)) :=
    fetchedOpcodes_add (10 * 200) 4 _
  rw [e3, e4, ef, h200.2.2.2.2.2, htrip.1]
  exact ⟨rfl, htrip.2.1, htrip.2.2.1, htrip.2.2.2.1, by decide, by decide, by decide⟩

/-! ## Flag frame -/

/-- Flags kept from a fetch up to any tick of the instruction it starts; the
opcode is the one the fetch tick selected, whether or not the guard tripped. -/
theorem flags_during_instruction (s : CPU) (hstate : s.state = State.FETCH) :
    ∀ k, (∀ j, 1 ≤ j → j < k → (CPU.tickN j s).state = State.EXECUTE) →
      (1 ≤ k → (CPU.tickN k s).opCode = s.tick.opCode) ∧
      (s.tick.opCode ≠ 0x69 → s.tick.opCode ≠ 0xCC →
        (CPU.tickN k s).status.C = s.status.C) ∧
      (s.tick.opCode ∉ [0xA9, 0xA2, 0xA0, 0x29, 0xCA, 0x88, 0x69, 0xCC] →
        (CPU.tickN k s).status.Z = s.status.Z ∧ (CPU.tickN k s).status.N = s.status.N) ∧
      (CPU.tickN k s).status.I = s.status.I ∧
      (s.tick.opCode ≠ 0xD8 → (CPU.tickN k s).status.D = s.status.D) ∧
      (s.tick.opCode ≠ 0x00 → (CPU.tickN k s).status.B = s.status.B) ∧
      (CPU.tickN k s).status.U = s.status.U ∧
      (CPU.tickN k s).status.V = s.status.V := by
  intro k
  induction k with
  | zero =>
    intro _
    simp [CPU.tickN]
  | succ k ih =>
    intro hexec
    have ihk := ih (fun j h1 h2 => hexec j h1 (by omega))
    rw [tickN_succ]
    rcases Nat.eq_zero_or_pos k with hk | hk
    · subst hk
      have hf := tick_fetch_guard s hstate
      simp [CPU.tickN, hf.1]
    · have hst := hexec k hk (by omega)
      have hop := ihk.1 hk
      have he := tick_execute (CPU.tickN k s) hst
      have hd := dispatch_flags (CPU.tickN k s)
      have hfr := dispatch_frame (CPU.tickN k s)
      rw [hop] at hd
      have hs : (CPU.tickN k s).tick.status = (CPU.tickN k s).dispatch.status := by rw [he]
      have ho : (CPU.tickN k s).tick.opCode = s.tick.opCode := by
        rw [he]
        exact hfr.2.2.trans hop
      rw [hs]
      refine ⟨fun _ => ho, fun h1 h2 => (hd.1 h1 h2).trans (ihk.2.1 h1 h2),
        fun h => ⟨((hd.2.1 h).1).trans (ihk.2.2.1 h).1, ((hd.2.1 h).2).trans (ihk.2.2.1 h).2⟩,
        hd.2.2.1.trans ihk.2.2.2.1, fun h => (hd.2.2.2.1 h).trans (ihk.2.2.2.2.1 h),
        fun h => (hd.2.2.2.2.1 h).trans (ihk.2.2.2.2.2.1 h),
        hd.2.2.2.2.2.1.trans ihk.2.2.2.2.2.2.1, hd.2.2.2.2.2.2.trans ihk.2.2.2.2.2.2.2⟩

/-- From flag-by-flag facts to the documented sets, opcode group by opcode group. -/
theorem flag_groups (op : Nat) (a b : Status)
    (hC : op ≠ 0x69 → op ≠ 0xCC → b.C = a.C)
    (hZN : op ∉ [0xA9, 0xA2, 0xA0, 0x29, 0xCA, 0x88, 0x69, 0xCC] → b.Z = a.Z ∧ b.N = a.N)
    (hI : b.I = a.I) (hD : op ≠ 0xD8 → b.D = a.D) (hB : op ≠ 0x00 → b.B = a.B)
    (hU : b.U = a.U) (hV : b.V = a.V) :
    (op ∈ [0xA9, 0xA2, 0xA0, 0x29, 0xCA, 0x88] →
      b.C = a.C ∧ b.I = a.I ∧ b.D = a.D ∧ b.B = a.B ∧
      b.U = a.U ∧ b.V = a.V) ∧
    (op = 0x69 → b.I = a.I ∧ b.D = a.D ∧ b.B = a.B ∧ b.U = a.U) ∧
    (op = 0xCC →
      b.I = a.I ∧ b.D = a.D ∧ b.B = a.B ∧ b.U = a.U ∧ b.V = a.V) ∧
    (op = 0xD8 → { b with D := a.D } = a) ∧
    (op = 0x00 → { b with B := a.B } = a) ∧
    (op ∈ [0xD0, 0x4C, 0xEA, 0x8D, 0x9A] → b = a) := by
  have hext : ∀ x y : Status, x.C = y.C → x.Z = y.Z → x.I = y.I → x.D = y.D → x.B = y.B →
      x.U = y.U → x.V = y.V → x.N = y.N → x = y := by
    intro x y h1 h2 h3 h4 h5 h6 h7 h8
    cases x
    cases y
    simp_all
  refine ⟨?_, ?_, ?_, ?_, ?_, ?_⟩
  · intro hop
    simp only [List.mem_cons, List.mem_singleton, List.not_mem_nil, or_false] at hop
    rcases hop with h | h | h | h | h | h <;> subst h <;>
      exact ⟨hC (by decide) (by decide), hI, hD (by decide), hB (by decide), hU, hV⟩
  · intro hop
    subst hop
    exact ⟨hI, hD (by decide), hB (by decide), hU⟩
  · intro hop
    subst hop
    exact ⟨hI, hD (by decide), hB (by decide), hU, hV⟩
  · intro hop
    subst hop
    exact hext _ _ (hC (by decide) (by decide)) (hZN (by decide)).1 hI rfl (hB (by decide)) hU hV
      (hZN (by decide)).2
  · intro hop
    subst hop
    exact hext _ _ (hC (by decide) (by decide)) (hZN (by decide)).1 hI (hD (by decide)) rfl hU hV
      (hZN (by decide)).2
  · intro hop
    simp only [List.mem_cons, List.mem_singleton, List.not_mem_nil, or_false] at hop
    rcases hop with h | h | h | h | h <;> subst h <;>
      exact hext _ _ (hC (by decide) (by decide)) (hZN (by decide)).1 hI (hD (by decide))
        (hB (by decide)) hU hV (hZN (by decide)).2

/-- C14: for every state.  A FETCH tick changes no flag.  An EXECUTE tick of
opcode `opCode` changes no flag outside the documented set of that opcode.  And
over a whole instruction: from any FETCH state, with `op` the opcode the fetch
tick selects (the byte read, or BRK when the loop guard trips) and `k` any number
of ticks that stays inside the instruction (the engine is in EXECUTE after each
of the ticks 1..k-1; `k` = cycle count + 1 is the whole instruction), every flag
outside the documented set of `op` is after `k` ticks as before the fetch.
The sets: LDA, LDX, LDY, AND, DEX, DEY keep C, I, D, B, U, V; ADC keeps I, D, B,
U; CPY keeps I, D, B, U, V; CLD keeps all but D; BRK keeps all but B; BNE, JMP,
NOP, STA, TXS keep all. -/
theorem flag_frame (s : CPU) :
    (s.state = State.FETCH → s.tick.status = s.status) ∧
    (s.state = State.EXECUTE →
      (s.opCode ∈ [0xA9, 0xA2, 0xA0, 0x29, 0xCA, 0x88] →
        s.tick.status.C = s.status.C ∧ s.tick.status.I = s.status.I ∧ s.tick.status.D = s.status.D ∧ s.tick.status.B = s.status.B ∧
        s.tick.status.U = s.status.U ∧ s.tick.status.V = s.status.V) ∧
      (s.opCode = 0x69 → s.tick.status.I = s.status.I ∧ s.tick.status.D = s.status.D ∧ s.tick.status.B = s.status.B ∧ s.tick.status.U = s.status.U) ∧
      (s.opCode = 0xCC →
        s.tick.status.I = s.status.I ∧ s.tick.status.D = s.status.D ∧ s.tick.status.B = s.status.B ∧ s.tick.status.U = s.status.U ∧ s.tick.status.V = s.status.V) ∧
      (s.opCode = 0xD8 → { s.tick.status with D := s.status.D } = s.status) ∧
      (s.opCode = 0x00 → { s.tick.status with B := s.status.B } = s.status) ∧
      (s.opCode ∈ [0xD0, 0x4C, 0xEA, 0x8D, 0x9A] → s.tick.status = s.status)) ∧
    (s.state = State.FETCH →
      ∀ k, (∀ j, 1 ≤ j → j < k → (CPU.tickN j s).state = State.EXECUTE) →
        (s.tick.opCode ∈ [0xA9, 0xA2, 0xA0, 0x29, 0xCA, 0x88] →
          (CPU.tickN k s).status.C = s.status.C ∧ (CPU.tickN k s).status.I = s.status.I ∧ (CPU.tickN k s).status.D = s.status.D ∧ (CPU.tickN k s).status.B = s.status.B ∧
          (CPU.tickN k s).status.U = s.status.U ∧ (CPU.tickN k s).status.V = s.status.V) ∧
        (s.tick.opCode = 0x69 → (CPU.tickN k s).status.I = s.status.I ∧ (CPU.tickN k s).status.D = s.status.D ∧ (CPU.tickN k s).status.B = s.status.B ∧ (CPU.tickN k s).status.U = s.status.U) ∧
        (s.tick.opCode = 0xCC →
          (CPU.tickN k s).status.I = s.status.I ∧ (CPU.tickN k s).status.D = s.status.D ∧ (CPU.tickN k s).status.B = s.status.B ∧ (CPU.tickN k s).status.U = s.status.U ∧ (CPU.tickN k s).status.V = s.status.V) ∧
        (s.tick.opCode = 0xD8 → { (CPU.tickN k s).status with D := s.status.D } = s.status) ∧
        (s.tick.opCode = 0x00 → { (CPU.tickN k s).status with B := s.status.B } = s.status) ∧
        (s.tick.opCode ∈ [0xD0, 0x4C, 0xEA, 0x8D, 0x9A] → (CPU.tickN k s).status = s.status)) := by
  refine ⟨fun h => (tick_fetch_guard s h).1, fun h => ?_, fun h k hexec => ?_⟩
  · have hd := dispatch_flags s
    have hs : s.tick.status = s.dispatch.status := by rw [tick_execute s h]
    rw [hs]
    exact flag_groups s.opCode s.status s.dispatch.status hd.1 hd.2.1 hd.2.2.1 hd.2.2.2.1
      hd.2.2.2.2.1 hd.2.2.2.2.2.1 hd.2.2.2.2.2.2
  · obtain ⟨_, hC, hZN, hI, hD, hB, hU, hV⟩ := flags_during_instruction s h k hexec
    exact flag_groups s.tick.opCode s.status (CPU.tickN k s).status hC hZN hI hD hB hU hV

/-- C14 witness: a machine that has counted 200 repeats and last fetched NOP
fetches NOP again, so the guard trips and BRK runs; over the whole instruction
(8 ticks) every flag but B is kept. -/
theorem flag_frame_witness :
    ({ CPU.loadedAt 0x0000 [0xEA] with prevOpCode := 0xEA, loops := 200 } : CPU).state
      = State.FETCH ∧
    ({ CPU.loadedAt 0x0000 [0xEA] with prevOpCode := 0xEA, loops := 200 } : CPU).tick.opCode
      = 0x00 ∧
    (CPU.tickN 8 { CPU.loadedAt 0x0000 [0xEA] with prevOpCode := 0xEA, loops := 200 }).status.B
      = 1 ∧
    { (CPU.tickN 8 { CPU.loadedAt 0x0000 [0xEA] with prevOpCode := 0xEA, loops := 200 }).status
        with B := 0 }
      = ({ CPU.loadedAt 0x0000 [0xEA] with prevOpCode := 0xEA, loops := 200 } : CPU).status :=
  have h := (flag_frame { CPU.loadedAt 0x0000 [0xEA] with prevOpCode := 0xEA, loops := 200 }).2.2
    rfl 8 (by intro j h1 h2; interval_cases j <;> decide)
  ⟨rfl, by decide, by decide, h.2.2.2.2.1 (by decide)⟩

/-! ## Memory frame -/

/-- C20: a FETCH tick leaves memory unchanged; an EXECUTE tick of any opcode other
than STA abs (0x8D) and BRK (0x00), supported or not, leaves memory unchanged; an
EXECUTE tick of STA leaves it unchanged unless the cycle is 4, and then changes
at most the byte at the effective address; an EXECUTE tick of BRK leaves it
unchanged unless the cycle is 2, 3 or 4, and (SP being a byte) changes at most
one byte, which lies in page 1 (0x0100..0x01FF). -/
theorem memory_write_frame (s : CPU) :
    (s.state = State.FETCH → s.tick.mem = s.mem) ∧
    (s.state = State.EXECUTE → s.opCode ≠ 0x8D → s.opCode ≠ 0x00 → s.tick.mem = s.mem) ∧
    (s.state = State.EXECUTE → s.opCode = 0x8D → s.currentCycle ≠ 4 → s.tick.mem = s.mem) ∧
    (s.state = State.EXECUTE → s.opCode = 0x8D → s.currentCycle = 4 →
      ∀ a : Fin 65536, a.val ≠ s.effectiveAdress % 65536 → s.tick.mem.Data a = s.mem.Data a) ∧
    (s.state = State.EXECUTE → s.opCode = 0x00 →
      s.currentCycle ≠ 2 → s.currentCycle ≠ 3 → s.currentCycle ≠ 4 → s.tick.mem = s.mem) ∧
    (s.state = State.EXECUTE → s.opCode = 0x00 → s.Sp < 256 →
      ∃ adr, 0x0100 ≤ adr ∧ adr ≤ 0x01FF ∧
        ∀ a : Fin 65536, a.val ≠ adr → s.tick.mem.Data a = s.mem.Data a) := by
  have hd := dispatch_mem s
  have hm : s.state = State.EXECUTE → s.tick.mem = s.dispatch.mem := by
    intro h
    rw [tick_execute s h]
  refine ⟨fun h => (tick_fetch_guard s h).2.1, fun h h1 h2 => ?_, fun h h1 h2 => ?_,
    fun h h1 _ a ha => ?_, fun h h1 h2 h3 h4 => ?_, fun h h1 hsp => ?_⟩
  · rw [hm h]
    exact hd.1 h1 h2
  · rw [hm h]
    exact hd.2.1 h1 h2
  · rw [hm h]
    exact hd.2.2.1 h1 a ha
  · rw [hm h]
    exact hd.2.2.2.1 h1 h2 h3 h4
  · refine ⟨0x0100 + s.Sp, by omega, by omega, fun a ha => ?_⟩
    rw [hm h]
    exact hd.2.2.2.2 h1 a (by omega)

/-- C20 witness: the fetch tick of the loop program leaves memory unchanged. -/
theorem memory_write_frame_witness :
    (CPU.loadedAt 0x0000 guardProgram).state = State.FETCH ∧
    (CPU.loadedAt 0x0000 guardProgram).tick.mem = (CPU.loadedAt 0x0000 guardProgram).mem :=
  ⟨rfl, (memory_write_frame (CPU.loadedAt 0x0000 guardProgram)).1 rfl⟩

/-! ## Instruction length, STA, DEX and DEY -/

/-- C17: for CLD, DEX, DEY, NOP, TXS (length 1), ADC, AND, LDA, LDX, LDY immediate
(length 2) and CPY, STA absolute (length 3), fetched at `p` without the loop guard
tripping: the engine is in EXECUTE after the fetch tick and each execute tick but
the last, and when it is back in FETCH the PC is (p + L) mod 65536; an immediate
opcode has taken its operand from mem[p+1], an absolute one its address bytes
from mem[p+1] (low) and mem[p+2] (high). -/
theorem instruction_length (s : CPU) (op n L : Nat)
    (hop : (op, n, L) ∈ [(0xD8, 2, 1), (0xCA, 2, 1), (0x88, 2, 1), (0xEA, 2, 1), (0x9A, 2, 1),
      (0x69, 2, 2), (0x29, 2, 2), (0xA9, 2, 2), (0xA2, 2, 2), (0xA0, 2, 2),
      (0xCC, 4, 3), (0x8D, 4, 3)])
    (hstate : s.state = State.FETCH)
    (hmem : s.MR s.Pc = op)
    (hguard : (if s.prevOpCode = op then s.loops + 1 else s.loops) ≤ 200) :
    (∀ k, 1 ≤ k → k ≤ n → (CPU.tickN k s).state = State.EXECUTE) ∧
    (CPU.tickN (n + 1) s).state = State.FETCH ∧
    (CPU.tickN (n + 1) s).Pc = (s.Pc + L) % 65536 ∧
    (L = 2 → (CPU.tickN (n + 1) s).operand = s.MR (s.Pc + 1)) ∧
    (L = 3 → (CPU.tickN (n + 1) s).lowByte = s.MR (s.Pc + 1) ∧
      (CPU.tickN (n + 1) s).HighByte = s.MR (s.Pc + 2) ∧
      (CPU.tickN (n + 1) s).effectiveAdress = (s.MR (s.Pc + 2) <<< 8) ||| s.MR (s.Pc + 1)) := by
  subst hmem
  have hf := tick_fetch s hstate hguard
  have hlt := byte_pair_lt (s.mem.read (s.Pc + 2)) (s.mem.read (s.Pc + 1)) (MR_lt s _) (MR_lt s _)
  have hea : (s.mem.read (s.Pc + 1) ||| s.mem.read (s.Pc + 2) <<< 8) % 65536
      = s.mem.read (s.Pc + 2) <<< 8 ||| s.mem.read (s.Pc + 1) := by
    rw [Nat.or_comm]
    exact Nat.mod_eq_of_lt hlt
  simp only [List.mem_cons, Prod.mk.injEq, List.mem_singleton, List.not_mem_nil, or_false] at hop
  rcases hop with h | h | h | h | h | h | h | h | h | h | h | h <;>
    obtain ⟨h1, h2, h3⟩ := h <;> subst h2 <;> subst h3 <;> rw [h1] at hf <;>
    refine ⟨fun k hk1 hk2 => ?_, ?_⟩
  all_goals first
    | (interval_cases k <;>
       simp [CPU.tickN, hf, tick_execute, CPU.dispatch, CPU.execADC, CPU.execAND,
         CPU.execCLD, CPU.execCPY, CPU.execDEX, CPU.execDEY, CPU.execLDA,
         CPU.execLDX, CPU.execLDY, CPU.execNOP, CPU.execSTA, CPU.execTXS,
         CPU.getInstructionCycles, CPU.readOperand, CPU.readLowByte, CPU.readHighByte,
         setCarry_eq, CPU.setZero, CPU.setNegative, CPU.calcEffectiveAdress, CPU.MW])
    | simp [CPU.tickN, hf, tick_execute, CPU.dispatch, CPU.execADC, CPU.execAND,
         CPU.execCLD, CPU.execCPY, CPU.execDEX, CPU.execDEY, CPU.execLDA,
         CPU.execLDX, CPU.execLDY, CPU.execNOP, CPU.execSTA, CPU.execTXS,
         CPU.getInstructionCycles, CPU.readOperand, CPU.readLowByte, CPU.readHighByte,
         setCarry_eq, CPU.setZero, CPU.setNegative, CPU.calcEffectiveAdress, CPU.MW, CPU.MR,
         MEM.read_mod, hea]

/-- C17 witness: `STA 0x0200` fetched at address 0x0010. -/
theorem instruction_length_witness :
    (CPU.loadedAt 0x0010 [0x8D, 0x00, 0x02]).state = State.FETCH ∧
    (CPU.loadedAt 0x0010 [0x8D, 0x00, 0x02]).MR (CPU.loadedAt 0x0010 [0x8D, 0x00, 0x02]).Pc
      = 0x8D ∧
    (CPU.tickN 5 (CPU.loadedAt 0x0010 [0x8D, 0x00, 0x02])).state = State.FETCH ∧
    (CPU.tickN 5 (CPU.loadedAt 0x0010 [0x8D, 0x00, 0x02])).Pc = 0x0013 :=
  have h := instruction_length (CPU.loadedAt 0x0010 [0x8D, 0x00, 0x02]) 0x8D 4 3 (by decide)
    rfl rfl (by decide)
  ⟨rfl, rfl, h.2.1, h.2.2.1⟩

/-- C18: when memory at PC, PC+1, PC+2 holds 0x8D, lo, hi, A is a byte and the
loop guard does not trip, then after the fetch tick and 4 execute ticks the
engine is in FETCH, the byte at `(hi << 8) | lo` is A, every other memory byte is
unchanged, and A, X, Y, SP and all flags are unchanged. -/
theorem sta_absolute (s : CPU) (lowByte highByte : Nat)
    (hstate : s.state = State.FETCH)
    (hguard : (if s.prevOpCode = 0x8D then s.loops + 1 else s.loops) ≤ 200)
    (hop : s.MR s.Pc = 0x8D) (hlo : s.MR (s.Pc + 1) = lowByte)
    (hhi : s.MR (s.Pc + 2) = highByte) (hA : s.A < 256) :
    (CPU.tickN 5 s).state = State.FETCH ∧
    (CPU.tickN 5 s).MR ((highByte <<< 8) ||| lowByte) = s.A ∧
    (∀ a : Fin 65536, a.val ≠ (highByte <<< 8) ||| lowByte →
      (CPU.tickN 5 s).mem.Data a = s.mem.Data a) ∧
    (CPU.tickN 5 s).A = s.A ∧ (CPU.tickN 5 s).X = s.X ∧ (CPU.tickN 5 s).Y = s.Y ∧
    (CPU.tickN 5 s).Sp = s.Sp ∧ (CPU.tickN 5 s).status = s.status := by
  have hlt : (highByte <<< 8) ||| lowByte < 65536 := by
    subst hlo hhi
    exact byte_pair_lt _ _ (MR_lt _ _) (MR_lt _ _)
  have hg : (if s.prevOpCode = s.MR s.Pc then s.loops + 1 else s.loops) ≤ 200 := by
    rw [hop]
    exact hguard
  have hf := tick_fetch s hstate hg
  rw [hop] at hf
  have hlo2 : s.mem.read (s.Pc + 1) = lowByte := hlo
  have hhi2 : s.mem.read (s.Pc + 1 + 1) = highByte := hhi
  have hea : (lowByte ||| highByte <<< 8) % 65536 = highByte <<< 8 ||| lowByte := by
    rw [Nat.or_comm]
    exact Nat.mod_eq_of_lt hlt
  have hAm : s.A % 256 = s.A := Nat.mod_eq_of_lt hA
  refine ⟨?_, ?_, ?_, ?_, ?_, ?_, ?_, ?_⟩
  · simp [CPU.tickN, hf, tick_execute, CPU.dispatch, CPU.execSTA, CPU.getInstructionCycles,
      CPU.readLowByte, CPU.readHighByte, CPU.calcEffectiveAdress, CPU.MW]
  · simp [CPU.tickN, hf, tick_execute, CPU.dispatch, CPU.execSTA, CPU.getInstructionCycles,
      CPU.readLowByte, CPU.readHighByte, CPU.calcEffectiveAdress, CPU.MW, CPU.MR,
      MEM.read_mod, MEM.read_write, hlo2, hhi2, hea, hAm]
  · intro a ha
    have ha2 : ¬ (a.val = (highByte <<< 8 ||| lowByte) % 65536) := by
      rw [Nat.mod_eq_of_lt hlt]
      exact ha
    simp [CPU.tickN, hf, tick_execute, CPU.dispatch, CPU.execSTA, CPU.getInstructionCycles,
      CPU.readLowByte, CPU.readHighByte, CPU.calcEffectiveAdress, CPU.MW, CPU.MR,
      MEM.read_mod, MEM.write, hlo2, hhi2, hea, ha2]
  all_goals
    simp [CPU.tickN, hf, tick_execute, CPU.dispatch, CPU.execSTA, CPU.getInstructionCycles,
      CPU.readLowByte, CPU.readHighByte, CPU.calcEffectiveAdress, CPU.MW]

/-- C18 witness: `STA 0x0200` with A = 0x7F. -/
theorem sta_absolute_witness :
    ({ CPU.loadedAt 0x0010 [0x8D, 0x00, 0x02] with A := 0x7F } : CPU).A < 256 ∧
    ({ CPU.loadedAt 0x0010 [0x8D, 0x00, 0x02] with A := 0x7F } : CPU).MR 0x0200 = 0x00 ∧
    (CPU.tickN 5 { CPU.loadedAt 0x0010 [0x8D, 0x00, 0x02] with A := 0x7F }).MR 0x0200 = 0x7F ∧
    (CPU.tickN 5 { CPU.loadedAt 0x0010 [0x8D, 0x00, 0x02] with A := 0x7F }).A = 0x7F :=
  have h := sta_absolute { CPU.loadedAt 0x0010 [0x8D, 0x00, 0x02] with A := 0x7F } 0x00 0x02
    rfl (by decide) rfl rfl rfl (by decide)
  ⟨by decide, rfl, h.2.1, h.2.2.2.1⟩

/-- Flag computations of a decremented byte, in the form the evaluation leaves them. -/
theorem decrement_flags (x : Nat) :
    ((if (256 : Int) ∣ (x : Int) + 255 then 1 else 0) = if (x + 255) % 256 = 0 then 1 else 0) ∧
    (if intBits (((x : Int) + 255) % 256) &&& 128 = 0 then 0 else 1) = (x + 255) % 256 / 128 := by
  have hb : intBits (((x : Int) + 255) % 256) = (x + 255) % 256 := by
    unfold intBits
    omega
  have h1 := and_128_ne_zero ((x + 255) % 256)
  constructor
  · by_cases h : (x + 255) % 256 = 0
    · rw [if_pos h, if_pos (by omega)]
    · rw [if_neg h, if_neg (by omega)]
  · rw [hb]
    by_cases h : (x + 255) % 256 &&& 128 = 0
    · rw [if_pos h]
      have : ¬ 128 ≤ (x + 255) % 256 % 256 := fun h2 => (h1.mpr h2) h
      omega
    · rw [if_neg h]
      have := h1.mp h
      omega

/-- C19: DEX (resp. DEY) fetched from a FETCH state without the loop guard
tripping leaves, after the fetch tick and 2 execute ticks, the register equal to
(old value - 1) mod 256 (written (old + 255) mod 256, so 0x00 becomes 0xFF),
Z = 1 iff the new value is 0x00, N = bit 7 of the new value, and the other index
register and A unchanged. -/
theorem dex_dey_decrement (s : CPU) (hstate : s.state = State.FETCH) :
    (s.MR s.Pc = 0xCA → (if s.prevOpCode = 0xCA then s.loops + 1 else s.loops) ≤ 200 →
      (CPU.tickN 3 s).state = State.FETCH ∧
      (CPU.tickN 3 s).X = (s.X + 255) % 256 ∧
      (CPU.tickN 3 s).status.Z = (if (CPU.tickN 3 s).X = 0x00 then 1 else 0) ∧
      (CPU.tickN 3 s).status.N = (CPU.tickN 3 s).X / 128 ∧
      (CPU.tickN 3 s).Y = s.Y ∧ (CPU.tickN 3 s).A = s.A) ∧
    (s.MR s.Pc = 0x88 → (if s.prevOpCode = 0x88 then s.loops + 1 else s.loops) ≤ 200 →
      (CPU.tickN 3 s).state = State.FETCH ∧
      (CPU.tickN 3 s).Y = (s.Y + 255) % 256 ∧
      (CPU.tickN 3 s).status.Z = (if (CPU.tickN 3 s).Y = 0x00 then 1 else 0) ∧
      (CPU.tickN 3 s).status.N = (CPU.tickN 3 s).Y / 128 ∧
      (CPU.tickN 3 s).X = s.X ∧ (CPU.tickN 3 s).A = s.A) := by
  constructor
  · intro hop hguard
    have hg : (if s.prevOpCode = s.MR s.Pc then s.loops + 1 else s.loops) ≤ 200 := by
      rw [hop]
      exact hguard
    have hf := tick_fetch s hstate hg
    rw [hop] at hf
    simp [CPU.tickN, hf, tick_execute, CPU.dispatch, CPU.execDEX, CPU.getInstructionCycles,
      CPU.setZero, CPU.setNegative]
    exact decrement_flags s.X
  · intro hop hguard
    have hg : (if s.prevOpCode = s.MR s.Pc then s.loops + 1 else s.loops) ≤ 200 := by
      rw [hop]
      exact hguard
    have hf := tick_fetch s hstate hg
    rw [hop] at hf
    simp [CPU.tickN, hf, tick_execute, CPU.dispatch, CPU.execDEY, CPU.getInstructionCycles,
      CPU.setZero, CPU.setNegative]
    exact decrement_flags s.Y

/-- C19 witness: DEX with X = 0x00 gives X = 0xFF, Z = 0, N = 1. -/
theorem dex_dey_decrement_witness :
    (CPU.loadedAt 0x0000 [0xCA]).state = State.FETCH ∧ (CPU.loadedAt 0x0000 [0xCA]).X = 0x00 ∧
    (CPU.tickN 3 (CPU.loadedAt 0x0000 [0xCA])).X = 0xFF ∧
    (CPU.tickN 3 (CPU.loadedAt 0x0000 [0xCA])).status.Z = 0 ∧
    (CPU.tickN 3 (CPU.loadedAt 0x0000 [0xCA])).status.N = 1 :=
  have h := (dex_dey_decrement (CPU.loadedAt 0x0000 [0xCA]) rfl).1 rfl (by decide)
  ⟨rfl, rfl, h.2.1, h.2.2.1, h.2.2.2.1⟩

end Emu6502
